import Mathlib

/-!
Shallow embedding of the CE Strike 3D game server (server.js) in Lean 4.

The server keeps the authoritative game state (players, bullets, match flags),
advances it in a fixed-rate physics tick, and mutates it from socket events
(join, mv, shoot, reload, new_game).  JavaScript numbers are modelled as
rationals (all arithmetic in the physics tick is exact over ℚ; the only
irrational operation, Math.sqrt, appears in the input handlers and is
modelled by passing the square-root value as an explicit argument whose
defining property is a hypothesis of the relevant theorems).
Math.random results, spawn-point choices and Date.now are likewise passed
as explicit arguments.  setTimeout callbacks and socket emissions are
modelled as emitted events.
-/

namespace CEStrike

/-- Map half extent along x (MAP_W in server.js). -/
def MAP_W : ℚ := 80

/-- Map half extent along z (MAP_D in server.js). -/
def MAP_D : ℚ := 80

/-- Gravity acceleration (GRAVITY in server.js). -/
def GRAVITY : ℚ := -28

/-- Jump impulse (JUMP_FORCE in server.js). -/
def JUMP_FORCE : ℚ := 10

/-- Player eye height (PLAYER_H in server.js). -/
def PLAYER_H : ℚ := 9 / 5

/-- Player collision radius (PLAYER_R in server.js). -/
def PLAYER_R : ℚ := 2 / 5

/-- Kill count needed to win (WINS_REQUIRED in server.js). -/
def WINS_REQUIRED : ℤ := 15

/-- Respawn delay in milliseconds (RESPAWN_MS in server.js). -/
def RESPAWN_MS : ℤ := 3000

/-- Bullet speed (BULLET_SPEED in server.js). -/
def BULLET_SPEED : ℚ := 40

/-- Maximum bullet travel distance (BULLET_MAX_DIST in server.js). -/
def BULLET_MAX_DIST : ℚ := 120

/-- Physics rate (PHYSICS_HZ in server.js). -/
def PHYSICS_HZ : ℚ := 60

/-- Fixed physics timestep, dt = 1 / PHYSICS_HZ in server.js. -/
def dt : ℚ := 1 / PHYSICS_HZ

/-- An axis-aligned map box: world center (x,y,z) and half extents (w,h,d),
exactly as the entries of MAP_BOXES in server.js. -/
structure Box where
  x : ℚ
  y : ℚ
  z : ℚ
  w : ℚ
  h : ℚ
  d : ℚ

/-- The static level geometry, MAP_BOXES in server.js, in source order. -/
def MAP_BOXES : List Box := [
  ⟨0, 3, MAP_D, MAP_W, 6, 1⟩,
  ⟨0, 3, -MAP_D, MAP_W, 6, 1⟩,
  ⟨MAP_W, 3, 0, 1, 6, MAP_D⟩,
  ⟨-MAP_W, 3, 0, 1, 6, MAP_D⟩,
  ⟨0, 1, 0, 6, 2, 6⟩,
  ⟨-20, 1, 10, 4, 2, 2⟩,
  ⟨-20, 1, -10, 4, 2, 2⟩,
  ⟨-35, 3/2, 0, 2, 3, 8⟩,
  ⟨20, 1, 10, 4, 2, 2⟩,
  ⟨20, 1, -10, 4, 2, 2⟩,
  ⟨35, 3/2, 0, 2, 3, 8⟩,
  ⟨-50, 2, -50, 4, 4, 4⟩,
  ⟨50, 2, -50, 4, 4, 4⟩,
  ⟨-50, 2, 50, 4, 4, 4⟩,
  ⟨50, 2, 50, 4, 4, 4⟩,
  ⟨-10, 3/4, -30, 3, 3/2, 10⟩,
  ⟨10, 3/4, 30, 3, 3/2, 10⟩,
  ⟨-50, 1/2, 0, 6, 1, 12⟩,
  ⟨50, 1/2, 0, 6, 1, 12⟩]

/-- A spawn point (x,z); y is always ground level 0 (SPAWN_POINTS in server.js). -/
structure SpawnPoint where
  x : ℚ
  z : ℚ

/-- The configured spawn points, SPAWN_POINTS in server.js. -/
def SPAWN_POINTS : List SpawnPoint := [
  ⟨-60, -60⟩, ⟨60, -60⟩, ⟨-60, 60⟩, ⟨60, 60⟩,
  ⟨0, -65⟩, ⟨0, 65⟩, ⟨-65, 0⟩, ⟨65, 0⟩]

/-- A character archetype entry of the CHARACTERS table in server.js. -/
structure Character where
  color : ℕ
  maxHp : ℚ
  speed : ℚ
  damage : ℚ
  reloadMs : ℤ
  maxAmmo : ℤ
  fireRateMs : ℤ
  weapon : String

/-- The CHARACTERS table of server.js, in source (insertion) order; the
first entry is the default used for unknown archetype names. -/
def CHARACTERS : List (String × Character) := [
  ("Andree", ⟨0x00e5ff, 100, 7, 22, 1200, 12, 150, "Assault Rifle"⟩),
  ("Chesney", ⟨0xff6b35, 140, 11/2, 45, 2200, 6, 600, "Shotgun"⟩),
  ("Denver", ⟨0xb5ff4d, 80, 9, 15, 800, 20, 80, "SMG"⟩),
  ("Fischer", ⟨0xe040fb, 90, 6, 70, 2500, 5, 1000, "Sniper"⟩),
  ("Maybelle", ⟨0xffeb3b, 110, 13/2, 30, 1500, 8, 400, "Revolver"⟩)]

/-- JavaScript Math.sign restricted to rationals: 1, -1 or 0. -/
def jsign (q : ℚ) : ℚ :=
  if 0 < q then 1 else if q < 0 then -1 else 0

/-- Point-in-AABB test, pointInBox in server.js. -/
def pointInBox (px py pz : ℚ) (box : Box) : Bool :=
  |px - box.x| ≤ box.w ∧ |py - box.y| ≤ box.h ∧ |pz - box.z| ≤ box.d

/-- Cylinder vs AABB collision in the XZ plane, playerCollidesBox in
server.js: the player collides iff its vertical extent overlaps the box and
the closest point of the box footprint is strictly within PLAYER_R. -/
def playerCollidesBox (px py pz : ℚ) (box : Box) : Bool :=
  if py + PLAYER_H < box.y - box.h ∨ box.y + box.h < py then false
  else
    let cx := max (box.x - box.w) (min px (box.x + box.w))
    let cz := max (box.z - box.d) (min pz (box.z + box.d))
    let dx := px - cx
    let dz := pz - cz
    decide (dx * dx + dz * dz < PLAYER_R * PLAYER_R)

end CEStrike

namespace CEStrike

/-- A player record, as created by the join handler in server.js. -/
structure Player where
  id : String
  name : String
  character : String
  color : ℕ
  x : ℚ
  y : ℚ
  z : ℚ
  vx : ℚ
  vy : ℚ
  vz : ℚ
  yaw : ℚ
  pitch : ℚ
  speed : ℚ
  health : ℚ
  maxHp : ℚ
  damage : ℚ
  fireRateMs : ℤ
  reloadMs : ℤ
  maxAmmo : ℤ
  ammo : ℤ
  lastShot : ℤ
  alive : Bool
  kills : ℤ
  reloading : Bool
  onGround : Bool

/-- One iteration of the box loop in resolvePlayerCollisions (server.js
lines 167-188): skip non-colliding boxes; otherwise either step up onto the
box top (feet below the top and non-positive vertical velocity) or push the
player out horizontally along the axis of smaller overlap, zeroing that
velocity component (Math.sign(0) = 0, so a push along an axis on which the
player sits exactly at the box center moves nothing). -/
def resolveBox (p : Player) (box : Box) : Player :=
  if playerCollidesBox p.x p.y p.z box = false then p
  else if p.y < box.y + box.h ∧ p.vy ≤ 0 then
    { p with y := box.y + box.h, vy := 0, onGround := true }
  else
    let dx := p.x - box.x
    let dz := p.z - box.z
    let overlapX := box.w + PLAYER_R - |dx|
    let overlapZ := box.d + PLAYER_R - |dz|
    if overlapX < overlapZ then
      { p with x := p.x + overlapX * jsign dx, vx := 0 }
    else
      { p with z := p.z + overlapZ * jsign dz, vz := 0 }

/-- resolvePlayerCollisions in server.js: fold resolveBox over every map
box, in source order, with no early exit. -/
def resolvePlayerCollisions (p : Player) : Player :=
  MAP_BOXES.foldl resolveBox p

/-- The per-player integration part of the physics tick (server.js lines
204-220): apply stored input velocity and gravity, clamp to the floor and
set the grounded flag, then clamp the horizontal position to the map
bounds.  Box collisions are resolved afterwards by
resolvePlayerCollisions. -/
def movePhase (p : Player) : Player :=
  let x1 := p.x + p.vx * dt
  let z1 := p.z + p.vz * dt
  let vy1 := p.vy + GRAVITY * dt
  let y1 := p.y + vy1 * dt
  let og := decide (y1 ≤ 0)
  let y2 := if y1 ≤ 0 then 0 else y1
  let vy2 := if y1 ≤ 0 then 0 else vy1
  let x2 := max (-MAP_W + PLAYER_R) (min (MAP_W - PLAYER_R) x1)
  let z2 := max (-MAP_D + PLAYER_R) (min (MAP_D - PLAYER_R) z1)
  { p with x := x2, y := y2, z := z2, vy := vy2, onGround := og }

/-- Full per-player physics step of one tick (server.js lines 200-224):
dead players are skipped, live players are integrated, clamped and then
resolved against every map box. -/
def movePlayer (p : Player) : Player :=
  if p.alive then resolvePlayerCollisions (movePhase p) else p

/-- A projectile record, as created by the shoot handler in server.js. -/
structure Bullet where
  id : ℕ
  ownerId : String
  x : ℚ
  y : ℚ
  z : ℚ
  dx : ℚ
  dy : ℚ
  dz : ℚ
  damage : ℚ
  color : ℕ
  dist : ℚ

/-- Bullet integration for one tick (server.js lines 229-232). -/
def stepBullet (b : Bullet) : Bullet :=
  { b with
    x := b.x + b.dx * BULLET_SPEED * dt,
    y := b.y + b.dy * BULLET_SPEED * dt,
    z := b.z + b.dz * BULLET_SPEED * dt,
    dist := b.dist + BULLET_SPEED * dt }

/-- Terminal range and bounds test for a bullet (server.js lines 235-236). -/
def bulletExpired (b : Bullet) : Bool :=
  BULLET_MAX_DIST < b.dist ∨ MAP_W + 5 < |b.x| ∨ MAP_D + 5 < |b.z| ∨
    b.y < -2 ∨ 30 < b.y

/-- Whether the bullet position lies inside some map box (server.js lines
241-245). -/
def bulletHitsMap (b : Bullet) : Bool :=
  MAP_BOXES.any (pointInBox b.x b.y b.z)

/-- The bullet-vs-player proximity test of the physics tick (server.js
lines 252-253): squared distance from the bullet to the player torso point
(position plus half player height) strictly below 0.8^2. -/
def hitTest (p : Player) (b : Bullet) : Bool :=
  let dx := p.x - b.x
  let dy := p.y + PLAYER_H / 2 - b.y
  let dz := p.z - b.z
  decide (dx * dx + dy * dy + dz * dz < (4/5) * (4/5))

/-- The candidate-victim test for a bullet (server.js line 251): not the
owner and alive, and within the hit radius. -/
def victimPred (b : Bullet) (e : String × Player) : Bool :=
  decide (e.1 ≠ b.ownerId) && e.2.alive && hitTest e.2 b

/-- Events emitted by the server core.  Socket emissions (io.emit broadcasts
and io.to unicasts) and deferred setTimeout timers are both modelled as
events. -/
inductive Ev where
  | hit (pid : String) (health : ℚ)
  | killFeed (killer victim killerChar : String)
  | gameOverEv (winner character : String)
  | respawnScheduled (pid : String) (delayMs : ℤ)
  | reloadScheduled (pid : String) (ms : ℤ)
  | joinedEv (pid : String)
  | playerJoined (name character : String)
  | gameReset

/-- Whether an event is broadcast to every connection (io.emit) rather than
sent to a single connection (io.to(id).emit) or being a deferred timer. -/
def Ev.isBroadcast : Ev → Bool
  | .hit _ _ => false
  | .killFeed _ _ _ => true
  | .gameOverEv _ _ => true
  | .respawnScheduled _ _ => false
  | .reloadScheduled _ _ => false
  | .joinedEv _ => false
  | .playerJoined _ _ => true
  | .gameReset => true

/-- The mutable server state: players keyed by socket id (association list
in JavaScript object insertion order), bullets keyed by the monotonically
increasing bulletId counter (JavaScript iterates integer keys in ascending
order, which the list order mirrors), and the match flags. -/
structure GameState where
  players : List (String × Player)
  bullets : List Bullet
  bulletId : ℕ
  gameOver : Bool
  winner : Option String

/-- Lookup of players[pid] on an association list. -/
def lookupP (ps : List (String × Player)) (pid : String) : Option Player :=
  (ps.find? (fun e => e.1 = pid)).map Prod.snd

/-- In-place mutation of every entry of key pid (JavaScript objects have at
most one, and all states built by the handlers keep keys distinct). -/
def updateP (ps : List (String × Player)) (pid : String) (f : Player → Player) :
    List (String × Player) :=
  ps.map (fun e => if e.1 = pid then (e.1, f e.2) else e)

/-- players[sid] = p : replace the record if the key exists, else append. -/
def insertP (ps : List (String × Player)) (sid : String) (p : Player) :
    List (String × Player) :=
  if (ps.find? (fun e => e.1 = sid)).isSome then updateP ps sid (fun _ => p)
  else ps ++ [(sid, p)]

/-- Accumulator for the bullet loop of the physics tick: current players,
bullets kept so far, events emitted so far, and the match flags. -/
structure TickAcc where
  players : List (String × Player)
  bullets : List Bullet
  evs : List Ev
  gameOver : Bool
  winner : Option String

/-- The hit branch of the bullet loop (server.js lines 255-287), applied
after a victim has been found: subtract the bullet damage, notify the hit
player, and on death pin health at 0, clear the alive flag, credit the
owner kill (when the owner is still connected), broadcast the kill feed,
possibly end the match, and schedule the respawn timer. -/
def applyHit (ps : List (String × Player)) (b : Bullet) (pid : String)
    (victim : Player) (go : Bool) (win : Option String) :
    List (String × Player) × List Ev × Bool × Option String :=
  let h1 := victim.health - b.damage
  let evHit := Ev.hit pid (max 0 h1)
  if h1 ≤ 0 then
    let ps1 := updateP ps pid (fun p => { p with health := 0, alive := false })
    match lookupP ps1 b.ownerId with
    | some shooter =>
      let ps2 := updateP ps1 b.ownerId (fun p => { p with kills := p.kills + 1 })
      if WINS_REQUIRED ≤ shooter.kills + 1 then
        (ps2, [evHit, Ev.killFeed shooter.name victim.name shooter.character,
               Ev.gameOverEv shooter.name shooter.character,
               Ev.respawnScheduled pid RESPAWN_MS], true, some shooter.name)
      else
        (ps2, [evHit, Ev.killFeed shooter.name victim.name shooter.character,
               Ev.respawnScheduled pid RESPAWN_MS], go, win)
    | none => (ps1, [evHit, Ev.respawnScheduled pid RESPAWN_MS], go, win)
  else
    (updateP ps pid (fun p => { p with health := h1 }), [evHit], go, win)

/-- One iteration of the bullet loop of the physics tick (server.js lines
227-290): integrate the bullet, drop it when expired, out of bounds or
absorbed by a map box, otherwise test every player in order and resolve the
first hit; a bullet that hits nothing is kept (at its integrated
position). -/
def processBullet (acc : TickAcc) (b0 : Bullet) : TickAcc :=
  let b := stepBullet b0
  if bulletExpired b then acc
  else if bulletHitsMap b then acc
  else
    match acc.players.find? (victimPred b) with
    | some e =>
      let r := applyHit acc.players b e.1 e.2 acc.gameOver acc.winner
      { players := r.1, bullets := acc.bullets, evs := acc.evs ++ r.2.1,
        gameOver := r.2.2.1, winner := r.2.2.2 }
    | none => { acc with bullets := acc.bullets ++ [b] }

/-- The player half of the physics tick: every player is advanced (dead
players are skipped inside movePlayer). -/
def advanceAllPlayers (ps : List (String × Player)) : List (String × Player) :=
  ps.map (fun e => (e.1, movePlayer e.2))

/-- One full physics tick (the 60 Hz setInterval body, server.js lines
196-292): a no-op while the match is over; otherwise all players are moved
and collision-resolved first, and only then is every bullet integrated and
tested, in ascending id order.  Returns the new state and the events
emitted during the tick. -/
def physicsTick (s : GameState) : GameState × List Ev :=
  if s.gameOver then (s, [])
  else
    let ps := advanceAllPlayers s.players
    let acc := s.bullets.foldl processBullet
      ⟨ps, [], [], s.gameOver, s.winner⟩
    ({ players := acc.players, bullets := acc.bullets, bulletId := s.bulletId,
       gameOver := acc.gameOver, winner := acc.winner }, acc.evs)

end CEStrike
namespace CEStrike

/-- startReload in server.js: mark the player as reloading and arm the
reload timer (the setTimeout is modelled as an emitted reloadScheduled
event); a no-op if the player does not exist. -/
def startReload (s : GameState) (sid : String) : GameState × List Ev :=
  match lookupP s.players sid with
  | none => (s, [])
  | some p =>
    ({ s with players := updateP s.players sid (fun q => { q with reloading := true }) },
     [Ev.reloadScheduled sid p.reloadMs])

/-- The reload socket handler (server.js lines 441-445): silently dropped
for an unknown player, a player already reloading, or a full magazine. -/
def handleReload (s : GameState) (sid : String) : GameState × List Ev :=
  match lookupP s.players sid with
  | none => (s, [])
  | some p =>
    if p.reloading = true ∨ p.maxAmmo ≤ p.ammo then (s, [])
    else startReload s sid

/-- The jittered (pre-normalization) pellet direction of the shoot handler
(server.js lines 419-421): each component of the aim vector is offset by
(Math.random() - 0.5) * spread, the three random draws being r.1, r.2.1
and r.2.2. -/
def pelletRaw (dx dy dz spread : ℚ) (r : ℚ × ℚ × ℚ) : ℚ × ℚ × ℚ :=
  (dx + (r.1 - 1/2) * spread,
   dy + (r.2.1 - 1/2) * spread,
   dz + (r.2.2 - 1/2) * spread)

/-- The bullet record built for pellet i of a shoot request (server.js
lines 424-434).  len is the value Math.sqrt(sdx*sdx+sdy*sdy+sdz*sdz) for
this pellet, passed in explicitly; the JavaScript expression (sqrt || 1)
replaces a zero length by 1. -/
def mkBullet (p : Player) (sid : String) (bid : ℕ) (dx dy dz spread : ℚ)
    (isChesney : Bool) (pellets : ℕ) (r : ℚ × ℚ × ℚ) (len0 : ℚ) : Bullet :=
  let sd := pelletRaw dx dy dz spread r
  let len := if len0 = 0 then 1 else len0
  { id := bid,
    ownerId := sid,
    x := p.x + dx * (6/5),
    y := p.y + PLAYER_H * (17/20),
    z := p.z + dz * (6/5),
    dx := sd.1 / len, dy := sd.2.1 / len, dz := sd.2.2 / len,
    damage := if isChesney then p.damage / pellets else p.damage,
    color := p.color,
    dist := 0 }

/-- The shoot socket handler (server.js lines 404-438).  now is the
Date.now() value; rnd i gives the three Math.random() draws of pellet i and
lenOf i the Math.sqrt value of its jittered direction.  The request is
silently dropped for an unknown, dead or reloading player, an empty
magazine, or before the fire-rate interval has elapsed; otherwise one ammo
is consumed and pellets bullets are created with fresh consecutive ids
(6 jittered pellets with split damage for the Chesney shotgun archetype,
one full-damage bullet otherwise), and an automatic reload starts when the
magazine empties. -/
def handleShoot (s : GameState) (sid : String) (now : ℤ) (dx dy dz : ℚ)
    (rnd : ℕ → ℚ × ℚ × ℚ) (lenOf : ℕ → ℚ) : GameState × List Ev :=
  match lookupP s.players sid with
  | none => (s, [])
  | some p =>
    if p.alive = false ∨ p.reloading = true ∨ p.ammo ≤ 0 then (s, [])
    else if now - p.lastShot < p.fireRateMs then (s, [])
    else
      let p1 := { p with lastShot := now, ammo := p.ammo - 1 }
      let isChesney := p.character = "Chesney"
      let pellets : ℕ := if isChesney then 6 else 1
      let spread : ℚ := if isChesney then 2/25 else 0
      let newBullets := (List.range pellets).map (fun i =>
        mkBullet p sid (s.bulletId + i) dx dy dz spread isChesney pellets
          (rnd i) (lenOf i))
      let s1 : GameState :=
        { s with players := updateP s.players sid (fun _ => p1),
                 bullets := s.bullets ++ newBullets,
                 bulletId := s.bulletId + pellets }
      if p1.ammo ≤ 0 then startReload s1 sid else (s1, [])

/-- The mv socket handler (server.js lines 380-401).  len is the value
Math.sqrt(vx*vx+vz*vz), passed in explicitly.  Unknown or dead players are
ignored; a nonzero movement vector is normalized and scaled by the player
speed, a zero one stops the player; the look angles are stored verbatim;
a jump request from a grounded player sets the jump impulse. -/
def handleMv (s : GameState) (sid : String) (vx vz yaw pitch : ℚ)
    (jump : Bool) (len : ℚ) : GameState :=
  match lookupP s.players sid with
  | none => s
  | some p =>
    if p.alive = false then s
    else
      let p1 := if 0 < len then
          { p with vx := vx / len * p.speed, vz := vz / len * p.speed }
        else { p with vx := 0, vz := 0 }
      let p2 := { p1 with yaw := yaw, pitch := pitch }
      let p3 := if jump = true ∧ p2.onGround = true then
          { p2 with vy := JUMP_FORCE, onGround := false }
        else p2
      { s with players := updateP s.players sid (fun _ => p3) }

/-- The new_game socket handler (server.js lines 448-461): only effective
while the match is over; clears the match flags and all bullets, resets
every player (kills, health, ammo, alive, reloading, velocity) at a fresh
spawn point (spIdx gives the random spawn choice per player key), and
broadcasts the reset. -/
def handleNewGame (s : GameState) (spIdx : String → Fin SPAWN_POINTS.length) :
    GameState × List Ev :=
  if s.gameOver = false then (s, [])
  else
    let ps := s.players.map (fun e =>
      let sp := SPAWN_POINTS.get (spIdx e.1)
      (e.1, { e.2 with
        x := sp.x, y := 0, z := sp.z,
        vx := 0, vy := 0, vz := 0,
        health := e.2.maxHp, alive := true,
        kills := 0, ammo := e.2.maxAmmo, reloading := false }))
    ({ s with players := ps, bullets := [], gameOver := false, winner := none },
     [Ev.gameReset])

/-- Lookup in the CHARACTERS table. -/
def lookupChar (name : String) : Option Character :=
  (CHARACTERS.find? (fun e => e.1 = name)).map Prod.snd

/-- The join socket handler (server.js lines 344-376): an unknown archetype
name falls back to the first table entry; the player record is created at
the chosen spawn point at ground level with full health and ammo, and the
join notifications are emitted (the player_joined broadcast carries the raw
request name and the resolved archetype). -/
def handleJoin (s : GameState) (sid name character : String)
    (spIdx : Fin SPAWN_POINTS.length) : GameState × List Ev :=
  let charKey := if (lookupChar character).isSome then character
    else "Andree"
  let ch := (lookupChar charKey).getD ⟨0, 0, 0, 0, 0, 0, 0, ""⟩
  let sp := SPAWN_POINTS.get spIdx
  let p : Player :=
    { id := sid,
      name := (if name = "" then "Soldier" else name).take 16,
      character := charKey,
      color := ch.color,
      x := sp.x, y := 0, z := sp.z,
      vx := 0, vy := 0, vz := 0,
      yaw := 0, pitch := 0,
      speed := ch.speed,
      health := ch.maxHp, maxHp := ch.maxHp,
      damage := ch.damage,
      fireRateMs := ch.fireRateMs,
      reloadMs := ch.reloadMs,
      maxAmmo := ch.maxAmmo,
      ammo := ch.maxAmmo,
      lastShot := 0,
      alive := true,
      kills := 0,
      reloading := false,
      onGround := true }
  ({ s with players := insertP s.players sid p },
   [Ev.joinedEv sid, Ev.playerJoined name charKey])

/-- Round half up to 2 decimal places, the +p.toFixed(2) packing of the
broadcast loop. -/
def rnd2 (q : ℚ) : ℚ := (⌊q * 100 + 1/2⌋ : ℤ) / 100

/-- Round half up to 3 decimal places, the +p.toFixed(3) packing of the
broadcast loop. -/
def rnd3 (q : ℚ) : ℚ := (⌊q * 1000 + 1/2⌋ : ℤ) / 1000

/-- Truncation toward zero, the p.health | 0 packing of the broadcast
loop. -/
def truncQ (q : ℚ) : ℤ := if 0 ≤ q then ⌊q⌋ else ⌈q⌉

/-- One packed player entry of the 20 Hz broadcast (server.js lines
301-317). -/
structure PlayerSnap where
  id : String
  x : ℚ
  y : ℚ
  z : ℚ
  yaw : ℚ
  pitch : ℚ
  hp : ℤ
  maxHp : ℚ
  alive : Bool
  kills : ℤ
  ammo : ℤ
  maxAmmo : ℤ
  reloading : Bool
  name : String
  character : String
  color : ℕ
  onGround : Bool

/-- One packed bullet entry of the 20 Hz broadcast (server.js lines
319-323). -/
structure BulletSnap where
  id : ℕ
  x : ℚ
  y : ℚ
  z : ℚ
  color : ℕ

/-- Packing of one player for the broadcast. -/
def snapPlayer (p : Player) : PlayerSnap :=
  { id := p.id,
    x := rnd2 p.x, y := rnd2 p.y, z := rnd2 p.z,
    yaw := rnd3 p.yaw, pitch := rnd3 p.pitch,
    hp := truncQ p.health, maxHp := p.maxHp,
    alive := p.alive, kills := p.kills,
    ammo := p.ammo, maxAmmo := p.maxAmmo,
    reloading := p.reloading,
    name := p.name, character := p.character,
    color := p.color, onGround := p.onGround }

/-- Packing of one bullet for the broadcast. -/
def snapBullet (b : Bullet) : BulletSnap :=
  { id := b.id, x := rnd2 b.x, y := rnd2 b.y, z := rnd2 b.z, color := b.color }

/-- The 20 Hz broadcast loop body (server.js lines 297-327): while the
match is over nothing is sent; otherwise the same packed snapshot of every
player and bullet is broadcast to all connections. -/
def broadcastSnapshot (s : GameState) : Option (List PlayerSnap × List BulletSnap) :=
  if s.gameOver then none
  else some (s.players.map (fun e => snapPlayer e.2), s.bullets.map snapBullet)

end CEStrike
namespace CEStrike

/-- The per-player state clauses of the tick invariant: health within
[0, maxHp], ammo within [0, maxAmmo], and the alive flag true exactly when
health is positive. -/
def PlayerInv (p : Player) : Prop :=
  0 ≤ p.health ∧ p.health ≤ p.maxHp ∧ 0 ≤ p.ammo ∧ p.ammo ≤ p.maxAmmo ∧
    (p.alive = true ↔ 0 < p.health)

instance (p : Player) : Decidable (PlayerInv p) := by
  unfold PlayerInv; infer_instance

/-- The horizontal-bounds clause: (x,z) within the map half extents minus
the collision radius on each axis. -/
def inBoundsXZ (p : Player) : Prop :=
  -MAP_W + PLAYER_R ≤ p.x ∧ p.x ≤ MAP_W - PLAYER_R ∧
    -MAP_D + PLAYER_R ≤ p.z ∧ p.z ≤ MAP_D - PLAYER_R

instance (p : Player) : Decidable (inBoundsXZ p) := by
  unfold inBoundsXZ; infer_instance

/-- Distinctness of the player keys (JavaScript objects cannot have
duplicate keys). -/
def keysNodup (ps : List (String × Player)) : Prop :=
  (ps.map Prod.fst).Nodup

theorem lookupP_cons (a : String × Player) (t : List (String × Player))
    (k : String) :
    lookupP (a :: t) k = if a.1 = k then some a.2 else lookupP t k := by
  by_cases h : a.1 = k <;> simp [lookupP, List.find?_cons, h]

theorem updateP_cons (a : String × Player) (t : List (String × Player))
    (k : String) (f : Player → Player) :
    updateP (a :: t) k f =
      (if a.1 = k then (a.1, f a.2) else a) :: updateP t k f := by
  simp [updateP]

theorem lookupP_updateP_self (ps : List (String × Player)) (k : String)
    (f : Player → Player) :
    lookupP (updateP ps k f) k = (lookupP ps k).map f := by
  induction ps with
  | nil => rfl
  | cons a t ih =>
    rw [updateP_cons]
    by_cases h : a.1 = k
    · rw [if_pos h, lookupP_cons, lookupP_cons, if_pos h, if_pos h]
      rfl
    · rw [if_neg h, lookupP_cons, lookupP_cons, if_neg h, if_neg h, ih]

theorem lookupP_updateP_ne (ps : List (String × Player)) (k k' : String)
    (f : Player → Player) (hne : k' ≠ k) :
    lookupP (updateP ps k f) k' = lookupP ps k' := by
  induction ps with
  | nil => rfl
  | cons a t ih =>
    rw [updateP_cons]
    by_cases h : a.1 = k
    · have h2 : a.1 ≠ k' := fun hh => hne (hh.symm.trans h)
      rw [if_pos h, lookupP_cons, lookupP_cons, if_neg h2, if_neg h2, ih]
    · by_cases h2 : a.1 = k'
      · rw [if_neg h, lookupP_cons, lookupP_cons, if_pos h2, if_pos h2]
      · rw [if_neg h, lookupP_cons, lookupP_cons, if_neg h2, if_neg h2, ih]

theorem keys_updateP (ps : List (String × Player)) (k : String)
    (f : Player → Player) :
    (updateP ps k f).map Prod.fst = ps.map Prod.fst := by
  induction ps with
  | nil => rfl
  | cons a t ih =>
    rw [updateP_cons]
    by_cases h : a.1 = k
    · rw [if_pos h]
      simpa using ih
    · rw [if_neg h]
      simpa using ih

theorem mem_of_lookupP (ps : List (String × Player)) (k : String) (p : Player)
    (h : lookupP ps k = some p) : (k, p) ∈ ps := by
  induction ps with
  | nil => simp [lookupP] at h
  | cons a t ih =>
    rw [lookupP_cons] at h
    by_cases ha : a.1 = k
    · rw [if_pos ha] at h
      obtain ⟨a1, a2⟩ := a
      simp only [Option.some.injEq] at h
      simp only at ha
      rw [← ha, ← h]
      exact List.mem_cons_self _ _
    · rw [if_neg ha] at h
      exact List.mem_cons_of_mem _ (ih h)

theorem lookupP_eq_of_mem_nodup (ps : List (String × Player)) (k : String)
    (p : Player) (hnd : keysNodup ps) (hm : (k, p) ∈ ps) :
    lookupP ps k = some p := by
  induction ps with
  | nil => simp at hm
  | cons a t ih =>
    rcases List.mem_cons.mp hm with h | h
    · rw [lookupP_cons, ← h]
      simp
    · have hk : k ∈ t.map Prod.fst := List.mem_map.mpr ⟨(k, p), h, rfl⟩
      have ha : a.1 ≠ k := by
        intro he
        have hnin := (List.nodup_cons.mp hnd).1
        rw [he] at hnin
        exact hnin hk
      have hnd' : keysNodup t := (List.nodup_cons.mp hnd).2
      rw [lookupP_cons, if_neg ha]
      exact ih hnd' h

theorem lookupP_insertP_self (ps : List (String × Player)) (sid : String)
    (p : Player) : lookupP (insertP ps sid p) sid = some p := by
  unfold insertP
  by_cases h : (ps.find? (fun e => e.1 = sid)).isSome
  · rw [if_pos h, lookupP_updateP_self]
    rcases Option.isSome_iff_exists.mp h with ⟨e, he⟩
    simp [lookupP, he]
  · rw [if_neg h]
    have hn : ps.find? (fun e => decide (e.1 = sid)) = none := by
      rcases Option.eq_none_or_eq_some (ps.find? (fun e => e.1 = sid)) with hh | ⟨v, hh⟩
      · exact hh
      · exact absurd (by simp [hh]) h
    simp [lookupP, List.find?_append, hn]

end CEStrike
namespace CEStrike

/-- A concrete player record used by witnesses (an Andree player standing
at (40, 0, 0), clear of all map boxes). -/
def basePlayer : Player :=
  { id := "A", name := "Alice", character := "Andree", color := 0x00e5ff,
    x := 40, y := 0, z := 0, vx := 0, vy := 0, vz := 0, yaw := 0, pitch := 0,
    speed := 7, health := 100, maxHp := 100, damage := 22,
    fireRateMs := 150, reloadMs := 1200, maxAmmo := 12, ammo := 12,
    lastShot := 0, alive := true, kills := 0, reloading := false,
    onGround := true }

/-- C5: A reload request issued by a player who is already reloading, or
whose ammo already equals maxAmmo, changes no state: the returned state is
the input state unchanged (same player record), and no event is emitted (in
particular no reload timer is armed and no notification is sent). -/
theorem c5_reload_noop_confirmed (s : GameState) (sid : String) (p : Player)
    (hp : lookupP s.players sid = some p)
    (hc : p.reloading = true ∨ p.ammo = p.maxAmmo) :
    handleReload s sid = (s, []) := by
  have hc2 : p.reloading = true ∨ p.maxAmmo ≤ p.ammo := by
    rcases hc with h | h
    · exact Or.inl h
    · exact Or.inr (le_of_eq h.symm)
  simp [handleReload, hp, hc2]

/-- Witness for C5 at a concrete state: a full-magazine player. -/
theorem c5_reload_noop_witness :
    handleReload ⟨[("A", basePlayer)], [], 0, false, none⟩ "A" =
      (⟨[("A", basePlayer)], [], 0, false, none⟩, []) :=
  c5_reload_noop_confirmed _ "A" basePlayer (by simp [lookupP, basePlayer])
    (Or.inr rfl)

/-- C6: A fire request from a known player who is reloading, whose ammo is
0, or for whom the fire-rate interval has not yet elapsed since the last
shot, is silently dropped: the state is unchanged (no ammo consumed, no
bullet created) and no event is emitted. -/
theorem c6_fire_noop_confirmed (s : GameState) (sid : String) (now : ℤ)
    (dx dy dz : ℚ) (rnd : ℕ → ℚ × ℚ × ℚ) (lenOf : ℕ → ℚ) (p : Player)
    (hp : lookupP s.players sid = some p)
    (hc : p.reloading = true ∨ p.ammo = 0 ∨ now - p.lastShot < p.fireRateMs) :
    handleShoot s sid now dx dy dz rnd lenOf = (s, []) := by
  by_cases h1 : p.alive = false ∨ p.reloading = true ∨ p.ammo ≤ 0
  · simp [handleShoot, hp, h1]
  · push_neg at h1
    have hrate : now - p.lastShot < p.fireRateMs := by
      rcases hc with h | h | h
      · exact absurd h h1.2.1
      · exact absurd h (by omega)
      · exact h
    have hcond : ¬(p.alive = false ∨ p.reloading = true ∨ p.ammo ≤ 0) := by
      push_neg
      exact h1
    simp only [handleShoot, hp, if_neg hcond, if_pos hrate]

/-- Witness for C6 at a concrete state: a fire request 100 ms after the
last shot of a 150 ms fire-rate archetype is dropped. -/
theorem c6_fire_noop_witness :
    handleShoot ⟨[("A", basePlayer)], [], 0, false, none⟩ "A" 100 0 0 1
      (fun _ => (0, 0, 0)) (fun _ => 1) =
      (⟨[("A", basePlayer)], [], 0, false, none⟩, []) :=
  c6_fire_noop_confirmed _ "A" 100 0 0 1 _ _ basePlayer
    (by simp [lookupP, basePlayer]) (Or.inr (Or.inr (by norm_num [basePlayer])))

/-- C10: A move request from a known living player whose (moveX, moveZ)
input has zero length sets the player horizontal velocity to exactly (0,0)
rather than keeping the previous velocity, and every such request stores
the look angles yaw and pitch verbatim regardless of the movement vector.
len is the Math.sqrt(vx*vx+vz*vz) value, characterized by hlen. -/
theorem c10_mv_zero_stops_confirmed (s : GameState) (sid : String)
    (vx vz yaw pitch : ℚ) (jump : Bool) (len : ℚ) (p : Player)
    (hp : lookupP s.players sid = some p) (halive : p.alive = true)
    (hlen : 0 ≤ len ∧ len ^ 2 = vx ^ 2 + vz ^ 2) :
    ∃ q, lookupP (handleMv s sid vx vz yaw pitch jump len).players sid = some q ∧
      (vx = 0 ∧ vz = 0 → q.vx = 0 ∧ q.vz = 0) ∧
      q.yaw = yaw ∧ q.pitch = pitch := by
  have halive2 : ¬(p.alive = false) := by simp [halive]
  simp only [handleMv, hp, if_neg halive2]
  refine ⟨_, by rw [lookupP_updateP_self, hp]; rfl, ?_, ?_, ?_⟩
  · rintro ⟨hx, hz⟩
    have hl0 : len = 0 := by
      have : len ^ 2 = 0 := by rw [hlen.2, hx, hz]; ring
      exact pow_eq_zero_iff (n := 2) (by norm_num) |>.mp this
    have : ¬(0 < len) := by rw [hl0]; exact lt_irrefl 0
    by_cases hj : jump = true ∧ p.onGround = true <;>
      simp [this, hj]
  · by_cases hj : jump = true ∧ p.onGround = true <;> by_cases hv : 0 < len <;>
      simp [hj, hv]
  · by_cases hj : jump = true ∧ p.onGround = true <;> by_cases hv : 0 < len <;>
      simp [hj, hv]

/-- Witness for C10: a concrete zero-length move request with new look
angles stops the player and stores the angles. -/
theorem c10_mv_zero_stops_witness :
    ∃ q, lookupP (handleMv ⟨[("A", { basePlayer with vx := 7 })], [], 0, false,
        none⟩ "A" 0 0 2 1 false 0).players "A" = some q ∧
      ((0:ℚ) = 0 ∧ (0:ℚ) = 0 → q.vx = 0 ∧ q.vz = 0) ∧ q.yaw = 2 ∧ q.pitch = 1 :=
  c10_mv_zero_stops_confirmed _ "A" 0 0 2 1 false 0 { basePlayer with vx := 7 }
    (by simp [lookupP]) rfl ⟨le_refl 0, by norm_num⟩

/-- C8: A new-game request is a no-op unless the match is over; when the
match is over it clears the game-over flag and the winner, removes all
bullets, resets every connected player (kills 0, health maxHp, ammo
maxAmmo, alive, at ground level on one of the configured spawn points) and
broadcasts the reset notification; and while the match is over the physics
tick advances nothing and emits nothing. -/
theorem c8_new_game_confirmed (s : GameState)
    (spIdx : String → Fin SPAWN_POINTS.length) :
    (s.gameOver = false → handleNewGame s spIdx = (s, [])) ∧
    (s.gameOver = true →
      (handleNewGame s spIdx).1.gameOver = false ∧
      (handleNewGame s spIdx).1.winner = none ∧
      (handleNewGame s spIdx).1.bullets = [] ∧
      (handleNewGame s spIdx).2 = [Ev.gameReset] ∧
      Ev.isBroadcast Ev.gameReset = true ∧
      ∀ e ∈ (handleNewGame s spIdx).1.players,
        e.2.kills = 0 ∧ e.2.health = e.2.maxHp ∧ e.2.ammo = e.2.maxAmmo ∧
        e.2.alive = true ∧ e.2.y = 0 ∧
        ∃ sp ∈ SPAWN_POINTS, e.2.x = sp.x ∧ e.2.z = sp.z) ∧
    (s.gameOver = true → physicsTick s = (s, [])) := by
  refine ⟨fun h => by simp [handleNewGame, h], fun h => ?_, fun h => by
    simp [physicsTick, h]⟩
  have h2 : ¬(s.gameOver = false) := by simp [h]
  refine ⟨by simp [handleNewGame, h2], by simp [handleNewGame, h2],
    by simp [handleNewGame, h2], by simp [handleNewGame, h2], rfl, ?_⟩
  intro e he
  simp only [handleNewGame, if_neg h2] at he
  simp only [List.mem_map] at he
  obtain ⟨e0, _, rfl⟩ := he
  exact ⟨rfl, rfl, rfl, rfl, rfl, SPAWN_POINTS.get (spIdx e0.1),
    List.get_mem _ _ _, rfl, rfl⟩

/-- A concrete game-over state used by the C8 witness. -/
def sC8 : GameState :=
  ⟨[("A", { basePlayer with kills := 15, health := 1 })], [], 3, true,
    some "Alice"⟩

/-- A concrete spawn choice function used by the C8 witness. -/
def fC8 : String → Fin SPAWN_POINTS.length := fun _ => ⟨0, by decide⟩

/-- Witness for C8 at a concrete game-over state with one player. -/
theorem c8_new_game_witness :
    (handleNewGame sC8 fC8).1.gameOver = false ∧
    (handleNewGame sC8 fC8).1.winner = none ∧
    (handleNewGame sC8 fC8).1.bullets = [] ∧
    (handleNewGame sC8 fC8).2 = [Ev.gameReset] ∧
    Ev.isBroadcast Ev.gameReset = true ∧
    ∀ e ∈ (handleNewGame sC8 fC8).1.players,
      e.2.kills = 0 ∧ e.2.health = e.2.maxHp ∧ e.2.ammo = e.2.maxAmmo ∧
      e.2.alive = true ∧ e.2.y = 0 ∧
      ∃ sp ∈ SPAWN_POINTS, e.2.x = sp.x ∧ e.2.z = sp.z :=
  (c8_new_game_confirmed sC8 fC8).2.1 rfl

/-- Every configured spawn point has integer coordinates, so the 2-decimal
snapshot rounding reproduces them exactly. -/
theorem rnd2_spawn (sp : SpawnPoint) (h : sp ∈ SPAWN_POINTS) :
    rnd2 sp.x = sp.x ∧ rnd2 sp.z = sp.z := by
  fin_cases h <;> constructor <;> norm_num [rnd2]

/-- C9: A join request creates a player record at the chosen configured
spawn point at ground level, with health and ammo equal to the bound
archetype maxima, kill count 0 and alive true; an unknown archetype name
falls back to the default (first) archetype Andree; and the immediately
following snapshot (taken outside game-over) contains an entry for the new
player showing exactly these values. -/
theorem c9_join_snapshot_confirmed (s : GameState) (sid name character : String)
    (spIdx : Fin SPAWN_POINTS.length) (hgo : s.gameOver = false) :
    ∃ q ch,
      lookupP (handleJoin s sid name character spIdx).1.players sid = some q ∧
      lookupChar q.character = some ch ∧
      ((lookupChar character).isSome = true → q.character = character) ∧
      ((lookupChar character).isSome = false → q.character = "Andree") ∧
      q.x = (SPAWN_POINTS.get spIdx).x ∧ q.y = 0 ∧
      q.z = (SPAWN_POINTS.get spIdx).z ∧
      q.health = ch.maxHp ∧ q.maxHp = ch.maxHp ∧
      q.ammo = ch.maxAmmo ∧ q.maxAmmo = ch.maxAmmo ∧
      q.kills = 0 ∧ q.alive = true ∧
      ∃ l, broadcastSnapshot (handleJoin s sid name character spIdx).1 =
          some l ∧
        ∃ e ∈ l.1, e.id = sid ∧
          e.x = (SPAWN_POINTS.get spIdx).x ∧ e.y = 0 ∧
          e.z = (SPAWN_POINTS.get spIdx).z ∧
          e.hp = truncQ ch.maxHp ∧ e.maxHp = ch.maxHp ∧
          e.ammo = ch.maxAmmo ∧ e.maxAmmo = ch.maxAmmo ∧
          e.alive = true ∧ e.kills = 0 := by
  have hex : ∃ c, lookupChar (if (lookupChar character).isSome then character
      else "Andree") = some c := by
    by_cases hk : (lookupChar character).isSome
    · rcases Option.isSome_iff_exists.mp hk with ⟨c0, hc0⟩
      exact ⟨c0, by simp only [if_pos hk]; exact hc0⟩
    · exact ⟨⟨0x00e5ff, 100, 7, 22, 1200, 12, 150, "Assault Rifle"⟩,
        by simp only [if_neg hk]; simp [lookupChar, CHARACTERS]⟩
  rcases hex with ⟨c0, hc0⟩
  have hsp := rnd2_spawn (SPAWN_POINTS.get spIdx) (List.get_mem _ _ _)
  refine ⟨_, c0, lookupP_insertP_self _ _ _, ?_, ?_, ?_, ?_, ?_, ?_, ?_, ?_,
    ?_, ?_, ?_, ?_, ?_⟩
  · simpa only [handleJoin] using hc0
  · intro hk
    simp [handleJoin, hk]
  · intro hk
    simp [handleJoin, hk]
  · simp [handleJoin]
  · simp [handleJoin]
  · simp [handleJoin]
  · simp only [handleJoin, hc0]
    rfl
  · simp only [handleJoin, hc0]
    rfl
  · simp only [handleJoin, hc0]
    rfl
  · simp only [handleJoin, hc0]
    rfl
  · simp [handleJoin]
  · simp [handleJoin]
  · refine ⟨((handleJoin s sid name character spIdx).1.players.map
        (fun e => snapPlayer e.2),
      (handleJoin s sid name character spIdx).1.bullets.map snapBullet),
      by simp [broadcastSnapshot, handleJoin, hgo], snapPlayer _,
      List.mem_map.mpr ⟨_, mem_of_lookupP _ _ _ (lookupP_insertP_self _ _ _),
        rfl⟩, ?_, ?_, ?_, ?_, ?_, ?_, ?_, ?_, ?_, ?_⟩
    · simp [handleJoin, snapPlayer]
    · simpa only [handleJoin, snapPlayer] using hsp.1
    · norm_num [handleJoin, snapPlayer, rnd2]
    · simpa only [handleJoin, snapPlayer] using hsp.2
    · simp only [handleJoin, snapPlayer, hc0]
      rfl
    · simp only [handleJoin, snapPlayer, hc0]
      rfl
    · simp only [handleJoin, snapPlayer, hc0]
      rfl
    · simp only [handleJoin, snapPlayer, hc0]
      rfl
    · simp [handleJoin, snapPlayer]
    · simp [handleJoin, snapPlayer]

/-- A concrete pre-join state and spawn choice used by the C9 witness. -/
def sC9 : GameState := ⟨[], [], 0, false, none⟩

/-- The spawn index used by the C9 witness. -/
def iC9 : Fin SPAWN_POINTS.length := ⟨4, by decide⟩

/-- Witness for C9: joining the empty server with an unknown archetype name
binds the default archetype and the next snapshot shows the new player. -/
theorem c9_join_snapshot_witness :
    ∃ q ch,
      lookupP (handleJoin sC9 "B" "Bob" "Nope" iC9).1.players "B" = some q ∧
      lookupChar q.character = some ch ∧
      ((lookupChar "Nope").isSome = true → q.character = "Nope") ∧
      ((lookupChar "Nope").isSome = false → q.character = "Andree") ∧
      q.x = (SPAWN_POINTS.get iC9).x ∧ q.y = 0 ∧
      q.z = (SPAWN_POINTS.get iC9).z ∧
      q.health = ch.maxHp ∧ q.maxHp = ch.maxHp ∧
      q.ammo = ch.maxAmmo ∧ q.maxAmmo = ch.maxAmmo ∧
      q.kills = 0 ∧ q.alive = true ∧
      ∃ l, broadcastSnapshot (handleJoin sC9 "B" "Bob" "Nope" iC9).1 =
          some l ∧
        ∃ e ∈ l.1, e.id = "B" ∧
          e.x = (SPAWN_POINTS.get iC9).x ∧ e.y = 0 ∧
          e.z = (SPAWN_POINTS.get iC9).z ∧
          e.hp = truncQ ch.maxHp ∧ e.maxHp = ch.maxHp ∧
          e.ammo = ch.maxAmmo ∧ e.maxAmmo = ch.maxAmmo ∧
          e.alive = true ∧ e.kills = 0 :=
  c9_join_snapshot_confirmed sC9 "B" "Bob" "Nope" iC9 rfl

/-- Every configured map box has strictly positive half extents. -/
theorem mapBoxes_extents_pos (box : Box) (h : box ∈ MAP_BOXES) :
    0 < box.w ∧ 0 < box.d := by
  fin_cases h <;> norm_num [MAP_W, MAP_D]

/-- A point pushed to exactly w + r beyond a segment center on either side
has distance exactly r (signed) from the clamped closest point. -/
theorem pushed_clamp (c w r : ℚ) (hw : 0 ≤ w) (hr : 0 ≤ r) :
    (c + w + r) - max (c - w) (min (c + w + r) (c + w)) = r ∧
    (c - w - r) - max (c - w) (min (c - w - r) (c + w)) = -r := by
  constructor
  · rw [min_eq_right (by linarith), max_eq_right (by linarith)]
    ring
  · rw [min_eq_left (by linarith), max_eq_left (by linarith)]
    ring

/-- C4 (amended): the guarantee holds for one resolution step of one box,
provided that, whenever that step takes the horizontal push-out branch, the
player center does not lie exactly on the box center along the pushed axis
(x when overlapX < overlapZ, z otherwise): Math.sign(0) = 0 makes a push
along a centered axis a pure velocity zeroing that moves nothing.  The
no-collision and step-up branches need no proviso.  After resolveBox, the
overlap test against that box returns false, or the player rests exactly on
the box top with the grounded flag set.  The guarantee is per step:
resolving a later box of the same pass may move the player back into an
earlier box. -/
theorem c4_resolution_corrected (p : Player) (box : Box)
    (hbox : box ∈ MAP_BOXES)
    (hpush : playerCollidesBox p.x p.y p.z box = true →
      ¬(p.y < box.y + box.h ∧ p.vy ≤ 0) →
      (box.w + PLAYER_R - |p.x - box.x| < box.d + PLAYER_R - |p.z - box.z| →
        p.x ≠ box.x) ∧
      (¬(box.w + PLAYER_R - |p.x - box.x| <
          box.d + PLAYER_R - |p.z - box.z|) → p.z ≠ box.z)) :
    playerCollidesBox (resolveBox p box).x (resolveBox p box).y
      (resolveBox p box).z box = false ∨
    ((resolveBox p box).y = box.y + box.h ∧
      (resolveBox p box).onGround = true) := by
  obtain ⟨hw, hd⟩ := mapBoxes_extents_pos box hbox
  have hR : (0:ℚ) < PLAYER_R := by norm_num [PLAYER_R]
  by_cases hc : playerCollidesBox p.x p.y p.z box = false
  · rw [resolveBox, if_pos hc]
    exact Or.inl hc
  · have hc2 : playerCollidesBox p.x p.y p.z box = true := by
      cases h2 : playerCollidesBox p.x p.y p.z box
      · exact absurd h2 hc
      · rfl
    rw [resolveBox, if_neg hc]
    by_cases hstep : p.y < box.y + box.h ∧ p.vy ≤ 0
    · rw [if_pos hstep]
      exact Or.inr ⟨rfl, rfl⟩
    · rw [if_neg hstep]
      by_cases hov : box.w + PLAYER_R - |p.x - box.x| <
          box.d + PLAYER_R - |p.z - box.z|
      · have hx : p.x ≠ box.x := (hpush hc2 hstep).1 hov
        rw [if_pos hov]
        left
        rw [playerCollidesBox]
        split
        · rfl
        · simp only [decide_eq_false_iff_not, not_lt]
          rcases lt_trichotomy p.x box.x with hdx | hdx | hdx
          · have hj : jsign (p.x - box.x) = -1 := by
              rw [jsign, if_neg (by linarith), if_pos (by linarith)]
            have hqx : p.x + (box.w + PLAYER_R - |p.x - box.x|) *
                jsign (p.x - box.x) = box.x - box.w - PLAYER_R := by
              rw [hj, abs_of_neg (by linarith)]
              ring
            rw [hqx, (pushed_clamp box.x box.w PLAYER_R hw.le hR.le).2]
            nlinarith [mul_self_nonneg
              (p.z - max (box.z - box.d) (min p.z (box.z + box.d)))]
          · exact absurd hdx hx
          · have hj : jsign (p.x - box.x) = 1 := by
              rw [jsign, if_pos (by linarith)]
            have hqx : p.x + (box.w + PLAYER_R - |p.x - box.x|) *
                jsign (p.x - box.x) = box.x + box.w + PLAYER_R := by
              rw [hj, abs_of_pos (by linarith)]
              ring
            rw [hqx, (pushed_clamp box.x box.w PLAYER_R hw.le hR.le).1]
            nlinarith [mul_self_nonneg
              (p.z - max (box.z - box.d) (min p.z (box.z + box.d)))]
      · have hz : p.z ≠ box.z := (hpush hc2 hstep).2 hov
        rw [if_neg hov]
        left
        rw [playerCollidesBox]
        split
        · rfl
        · simp only [decide_eq_false_iff_not, not_lt]
          rcases lt_trichotomy p.z box.z with hdz | hdz | hdz
          · have hj : jsign (p.z - box.z) = -1 := by
              rw [jsign, if_neg (by linarith), if_pos (by linarith)]
            have hqz : p.z + (box.d + PLAYER_R - |p.z - box.z|) *
                jsign (p.z - box.z) = box.z - box.d - PLAYER_R := by
              rw [hj, abs_of_neg (by linarith)]
              ring
            rw [hqz, (pushed_clamp box.z box.d PLAYER_R hd.le hR.le).2]
            nlinarith [mul_self_nonneg
              (p.x - max (box.x - box.w) (min p.x (box.x + box.w)))]
          · exact absurd hdz hz
          · have hj : jsign (p.z - box.z) = 1 := by
              rw [jsign, if_pos (by linarith)]
            have hqz : p.z + (box.d + PLAYER_R - |p.z - box.z|) *
                jsign (p.z - box.z) = box.z + box.d + PLAYER_R := by
              rw [hj, abs_of_pos (by linarith)]
              ring
            rw [hqz, (pushed_clamp box.z box.d PLAYER_R hd.le hR.le).1]
            nlinarith [mul_self_nonneg
              (p.x - max (box.x - box.w) (min p.x (box.x + box.w)))]

/-- A player rising through the center bunker exactly on its center axes:
because Math.sign(0) = 0, the push-out moves nothing. -/
def pC4 : Player :=
  { basePlayer with x := 0, y := 5/2, z := 0, vy := 5, onGround := false }

set_option maxHeartbeats 2000000 in
/-- Counterexample to C4 as stated: for the player state pC4 (rising, with
vy > 0, centered inside the bunker box of the level), the full per-tick
collision resolution pass leaves the state unchanged, the overlap test
against that level box still returns true afterwards, and the player is
neither resting on the box top (y = 5/2 ≠ 3) nor grounded. -/
theorem c4_centerline_counterexample :
    (⟨0, 1, 0, 6, 2, 6⟩ : Box) ∈ MAP_BOXES ∧
    resolvePlayerCollisions pC4 = pC4 ∧
    playerCollidesBox pC4.x pC4.y pC4.z ⟨0, 1, 0, 6, 2, 6⟩ = true ∧
    ¬(pC4.y = (⟨0, 1, 0, 6, 2, 6⟩ : Box).y + (⟨0, 1, 0, 6, 2, 6⟩ : Box).h ∧
      pC4.onGround = true) := by
  refine ⟨by simp [MAP_BOXES], ?_,
    by norm_num [playerCollidesBox, pC4, basePlayer, PLAYER_H, PLAYER_R],
    by norm_num [pC4, basePlayer]⟩
  norm_num [resolvePlayerCollisions, MAP_BOXES, resolveBox, playerCollidesBox,
    jsign, pC4, basePlayer, PLAYER_H, PLAYER_R, MAP_W, MAP_D]

/-- A player inside the bunker box but off its center axes. -/
def pC4w : Player :=
  { basePlayer with x := 5, y := 5/2, z := 1, vy := 5, onGround := false }

/-- Witness for the amended C4 at a concrete input: a player inside the
bunker box but off its center axes is pushed fully out by the single-box
resolution step. -/
theorem c4_resolution_witness :
    playerCollidesBox (resolveBox pC4w ⟨0, 1, 0, 6, 2, 6⟩).x
      (resolveBox pC4w ⟨0, 1, 0, 6, 2, 6⟩).y
      (resolveBox pC4w ⟨0, 1, 0, 6, 2, 6⟩).z ⟨0, 1, 0, 6, 2, 6⟩ = false ∨
    ((resolveBox pC4w ⟨0, 1, 0, 6, 2, 6⟩).y = (1 : ℚ) + 2 ∧
      (resolveBox pC4w ⟨0, 1, 0, 6, 2, 6⟩).onGround = true) :=
  c4_resolution_corrected pC4w ⟨0, 1, 0, 6, 2, 6⟩ (by simp [MAP_BOXES])
    (fun _ _ => ⟨fun _ => by norm_num [pC4w, basePlayer],
      fun _ => by norm_num [pC4w, basePlayer]⟩)

end CEStrike
namespace CEStrike

/-- resolveBox never changes the combat fields of a player. -/
theorem resolveBox_fields (p : Player) (box : Box) :
    (resolveBox p box).health = p.health ∧
    (resolveBox p box).maxHp = p.maxHp ∧
    (resolveBox p box).ammo = p.ammo ∧
    (resolveBox p box).maxAmmo = p.maxAmmo ∧
    (resolveBox p box).alive = p.alive := by
  rw [resolveBox]
  split
  · exact ⟨rfl, rfl, rfl, rfl, rfl⟩
  · split
    · exact ⟨rfl, rfl, rfl, rfl, rfl⟩
    · dsimp only
      split <;> exact ⟨rfl, rfl, rfl, rfl, rfl⟩

/-- Folding resolveBox over any box list never changes the combat fields. -/
theorem foldl_resolveBox_fields (bs : List Box) (p : Player) :
    ((bs.foldl resolveBox p).health = p.health ∧
     (bs.foldl resolveBox p).maxHp = p.maxHp ∧
     (bs.foldl resolveBox p).ammo = p.ammo ∧
     (bs.foldl resolveBox p).maxAmmo = p.maxAmmo ∧
     (bs.foldl resolveBox p).alive = p.alive) := by
  induction bs generalizing p with
  | nil => exact ⟨rfl, rfl, rfl, rfl, rfl⟩
  | cons b t ih =>
    have h1 := resolveBox_fields p b
    have h2 := ih (resolveBox p b)
    rw [List.foldl_cons]
    exact ⟨h2.1.trans h1.1, h2.2.1.trans h1.2.1, h2.2.2.1.trans h1.2.2.1,
      h2.2.2.2.1.trans h1.2.2.2.1, h2.2.2.2.2.trans h1.2.2.2.2⟩

/-- The full per-player physics step never changes the combat fields. -/
theorem movePlayer_fields (p : Player) :
    (movePlayer p).health = p.health ∧
    (movePlayer p).maxHp = p.maxHp ∧
    (movePlayer p).ammo = p.ammo ∧
    (movePlayer p).maxAmmo = p.maxAmmo ∧
    (movePlayer p).alive = p.alive := by
  rw [movePlayer]
  split
  · exact foldl_resolveBox_fields MAP_BOXES (movePhase p)
  · exact ⟨rfl, rfl, rfl, rfl, rfl⟩

/-- The per-player invariant is preserved by the physics movement step. -/
theorem movePlayer_inv (p : Player) (h : PlayerInv p) :
    PlayerInv (movePlayer p) := by
  obtain ⟨h1, h2, h3, h4, h5⟩ := movePlayer_fields p
  unfold PlayerInv at h ⊢
  rw [h1, h2, h3, h4, h5]
  exact h

/-- Two entries of a key-nodup association list with the same key are the
same entry. -/
theorem eq_of_keysNodup (ps : List (String × Player)) (hnd : keysNodup ps)
    (e1 e2 : String × Player) (h1 : e1 ∈ ps) (h2 : e2 ∈ ps)
    (hk : e1.1 = e2.1) : e1 = e2 := by
  have l1 := lookupP_eq_of_mem_nodup ps e1.1 e1.2 hnd h1
  have l2 := lookupP_eq_of_mem_nodup ps e2.1 e2.2 hnd h2
  rw [hk] at l1
  rw [l1] at l2
  obtain ⟨a1, a2⟩ := e1
  obtain ⟨b1, b2⟩ := e2
  simp only at hk
  simp only [Option.some.injEq] at l2
  rw [hk, l2]

end CEStrike
namespace CEStrike

/-- Facts recovered from a successful victim search. -/
theorem victimPred_facts (b : Bullet) (e : String × Player)
    (h : victimPred b e = true) :
    e.1 ≠ b.ownerId ∧ e.2.alive = true ∧ hitTest e.2 b = true := by
  simp only [victimPred, Bool.and_eq_true, decide_eq_true_eq] at h
  exact ⟨h.1.1, h.1.2, h.2⟩

/-- updateP keeps the key-nodup property. -/
theorem keysNodup_updateP (ps : List (String × Player)) (k : String)
    (f : Player → Player) (h : keysNodup ps) : keysNodup (updateP ps k f) := by
  unfold keysNodup
  rw [keys_updateP]
  exact h

/-- updateP keeps the per-player invariant when the update map does on the
touched entries. -/
theorem updateP_inv (ps : List (String × Player)) (k : String)
    (f : Player → Player) (hinv : ∀ e ∈ ps, PlayerInv e.2)
    (hf : ∀ e ∈ ps, e.1 = k → PlayerInv (f e.2)) :
    ∀ e ∈ updateP ps k f, PlayerInv e.2 := by
  intro e he
  rcases List.mem_map.mp he with ⟨e0, he0, rfl⟩
  by_cases h : e0.1 = k
  · simp only [if_pos h]
    exact hf e0 he0 h
  · simp only [if_neg h]
    exact hinv e0 he0

/-- The hit branch of the bullet loop preserves the key-nodup property and
the per-player invariant. -/
theorem applyHit_inv (ps : List (String × Player)) (b : Bullet) (pid : String)
    (victim : Player) (go : Bool) (win : Option String)
    (hd : 0 ≤ b.damage) (hnd : keysNodup ps)
    (hinv : ∀ e ∈ ps, PlayerInv e.2)
    (hmem : (pid, victim) ∈ ps) (halive : victim.alive = true) :
    keysNodup (applyHit ps b pid victim go win).1 ∧
    ∀ e ∈ (applyHit ps b pid victim go win).1, PlayerInv e.2 := by
  have hvinv := hinv _ hmem
  rw [applyHit]
  by_cases h0 : victim.health - b.damage ≤ 0
  · rw [if_pos h0]
    have hnd1 : keysNodup (updateP ps pid
        (fun p => { p with health := 0, alive := false })) :=
      keysNodup_updateP _ _ _ hnd
    have hinv1 : ∀ e ∈ updateP ps pid
        (fun p => { p with health := 0, alive := false }), PlayerInv e.2 := by
      apply updateP_inv _ _ _ hinv
      intro e he _
      have he2 := hinv e he
      unfold PlayerInv at he2 ⊢
      exact ⟨le_refl 0, le_trans he2.1 he2.2.1, he2.2.2.1, he2.2.2.2.1,
        by simp⟩
    cases hsh : lookupP (updateP ps pid
        (fun p => { p with health := 0, alive := false })) b.ownerId with
    | none =>
      simp only [hsh]
      exact ⟨hnd1, hinv1⟩
    | some shooter =>
      simp only [hsh]
      have hnd2 := keysNodup_updateP (updateP ps pid
        (fun p => { p with health := 0, alive := false })) b.ownerId
        (fun p => { p with kills := p.kills + 1 }) hnd1
      have hinv2 : ∀ e ∈ updateP (updateP ps pid
          (fun p => { p with health := 0, alive := false })) b.ownerId
          (fun p => { p with kills := p.kills + 1 }), PlayerInv e.2 := by
        apply updateP_inv _ _ _ hinv1
        intro e he _
        have := hinv1 e he
        unfold PlayerInv at this ⊢
        exact this
      split
      · exact ⟨hnd2, hinv2⟩
      · exact ⟨hnd2, hinv2⟩
  · rw [if_neg h0]
    push_neg at h0
    dsimp only
    refine ⟨keysNodup_updateP _ _ _ hnd, ?_⟩
    apply updateP_inv _ _ _ hinv
    intro e he hk
    have heq : e = (pid, victim) :=
      eq_of_keysNodup ps hnd e (pid, victim) he hmem (by simpa using hk)
    rw [heq]
    unfold PlayerInv
    refine ⟨h0.le, ?_, hvinv.2.2.1, hvinv.2.2.2.1, by simp [halive, h0]⟩
    have hdam : victim.health - b.damage ≤ victim.health := by linarith
    exact hdam.trans hvinv.2.1

/-- One bullet step preserves the key-nodup property and the per-player
invariant. -/
theorem processBullet_inv (acc : TickAcc) (b0 : Bullet) (hd : 0 ≤ b0.damage)
    (hnd : keysNodup acc.players) (hinv : ∀ e ∈ acc.players, PlayerInv e.2) :
    keysNodup (processBullet acc b0).players ∧
    ∀ e ∈ (processBullet acc b0).players, PlayerInv e.2 := by
  rw [processBullet]
  split
  · exact ⟨hnd, hinv⟩
  · split
    · exact ⟨hnd, hinv⟩
    · cases hf : acc.players.find? (victimPred (stepBullet b0)) with
      | none =>
        simp only [hf]
        exact ⟨hnd, hinv⟩
      | some e0 =>
        simp only [hf]
        have hp := List.find?_some hf
        have hfacts := victimPred_facts _ _ hp
        have hmem := List.mem_of_find?_eq_some hf
        have hai := applyHit_inv acc.players (stepBullet b0) e0.1 e0.2
          acc.gameOver acc.winner hd hnd hinv (by simpa using hmem)
          hfacts.2.1
        exact hai

/-- The whole bullet loop preserves the key-nodup property and the
per-player invariant. -/
theorem foldl_processBullet_inv (bs : List Bullet) (acc : TickAcc)
    (hd : ∀ b ∈ bs, 0 ≤ b.damage) (hnd : keysNodup acc.players)
    (hinv : ∀ e ∈ acc.players, PlayerInv e.2) :
    keysNodup (bs.foldl processBullet acc).players ∧
    ∀ e ∈ (bs.foldl processBullet acc).players, PlayerInv e.2 := by
  induction bs generalizing acc with
  | nil => exact ⟨hnd, hinv⟩
  | cons b t ih =>
    rw [List.foldl_cons]
    have h1 := processBullet_inv acc b (hd b (List.mem_cons_self _ _)) hnd hinv
    exact ih _ (fun b2 hb2 => hd b2 (List.mem_cons_of_mem _ hb2)) h1.1 h1.2

end CEStrike
namespace CEStrike

/-- C1 (amended): at the end of every physics tick every player still
satisfies 0 ≤ health ≤ maxHealth, 0 ≤ ammo ≤ maxAmmo and alive ↔ health >
0; and the player (x,z) position lies within the level bounds (half extent
minus collision radius per axis) immediately after the boundary clamp of
the movement phase.  (The subsequent box push-out can move it back outside
those bounds, so the bounds clause does not hold at the very end of the
tick; see the counterexample.) -/
theorem c1_invariants_corrected (s : GameState)
    (hnd : keysNodup s.players)
    (hinv : ∀ e ∈ s.players, PlayerInv e.2)
    (hb : ∀ b ∈ s.bullets, 0 ≤ b.damage) :
    (∀ e ∈ (physicsTick s).1.players, PlayerInv e.2) ∧
    ∀ p : Player, inBoundsXZ (movePhase p) := by
  constructor
  · rw [physicsTick]
    split
    · exact hinv
    · dsimp only
      have hnd2 : keysNodup (advanceAllPlayers s.players) := by
        unfold keysNodup advanceAllPlayers
        rw [List.map_map]
        have hcmp : (Prod.fst ∘ fun e : String × Player =>
            (e.1, movePlayer e.2)) = Prod.fst := funext fun e => rfl
        rw [hcmp]
        exact hnd
      have hinv2 : ∀ e ∈ advanceAllPlayers s.players, PlayerInv e.2 := by
        intro e he
        rcases List.mem_map.mp he with ⟨e0, he0, rfl⟩
        exact movePlayer_inv _ (hinv e0 he0)
      exact (foldl_processBullet_inv s.bullets _ hb hnd2 hinv2).2
  · intro p
    unfold inBoundsXZ movePhase
    dsimp only
    exact ⟨le_max_left _ _,
      max_le (by norm_num [MAP_W, PLAYER_R]) (min_le_left _ _),
      le_max_left _ _,
      max_le (by norm_num [MAP_D, PLAYER_R]) (min_le_left _ _)⟩

/-- A concrete one-player state used by the C1 witness. -/
def sW1 : GameState := ⟨[("A", basePlayer)], [], 0, false, none⟩

/-- Witness for the amended C1 at a concrete state. -/
theorem c1_invariants_witness :
    (∀ e ∈ (physicsTick sW1).1.players, PlayerInv e.2) ∧
    ∀ p : Player, inBoundsXZ (movePhase p) :=
  c1_invariants_corrected sW1 (by simp [keysNodup, sW1])
    (by
      intro e he
      simp only [sW1, List.mem_singleton] at he
      subst he
      norm_num [PlayerInv, basePlayer])
    (by simp [sW1])

/-- A live player jumping in the north-east wall corner, inside the level
bounds. -/
def pC1 : Player :=
  { basePlayer with x := 398/5, y := 1, z := 159/2, vy := 5, onGround := false }

/-- The state of pC1 after one physics movement step: the north-wall
push-out moves x to 80.4, after which the east-wall push-out moves z to
80.4. -/
def pC1post : Player :=
  { basePlayer with
    x := 402/5, y := 242/225, z := 402/5, vy := 68/15, onGround := false }

/-- The one-player state around pC1. -/
def sC1 : GameState := ⟨[("P", pC1)], [], 0, false, none⟩

/-- The state of pC1 after integration and clamping, before box
resolution. -/
def pC1mid : Player :=
  { basePlayer with
    x := 398/5, y := 242/225, z := 159/2, vy := 68/15, onGround := false }

set_option maxHeartbeats 1000000 in
/-- Integration and clamping send pC1 to pC1mid. -/
theorem movePhase_pC1 : movePhase pC1 = pC1mid := by
  norm_num [movePhase, pC1, pC1mid, basePlayer, dt, PHYSICS_HZ, GRAVITY,
    MAP_W, MAP_D, PLAYER_R]

/-- Folding resolveBox over boxes that do not collide changes nothing. -/
theorem foldl_resolveBox_id (bs : List Box) (p : Player)
    (h : ∀ b ∈ bs, resolveBox p b = p) : bs.foldl resolveBox p = p := by
  induction bs with
  | nil => rfl
  | cons b t ih =>
    rw [List.foldl_cons, h b (List.mem_cons_self _ _)]
    exact ih (fun b2 hb2 => h b2 (List.mem_cons_of_mem _ hb2))

/-- pC1mid after the north-wall push-out: x moved out to 80.4. -/
def pC1a : Player :=
  { basePlayer with
    x := 402/5, y := 242/225, z := 159/2, vy := 68/15, onGround := false }

set_option maxHeartbeats 1000000 in
/-- The north wall pushes pC1mid out along x, to x = 80.4. -/
theorem resolve_pC1_box0 :
    resolveBox pC1mid ⟨0, 3, MAP_D, MAP_W, 6, 1⟩ = pC1a := by
  norm_num [resolveBox, playerCollidesBox, jsign, pC1mid, pC1a, basePlayer,
    MAP_W, MAP_D, PLAYER_H, PLAYER_R, abs_of_nonneg, abs_of_nonpos]

set_option maxHeartbeats 1000000 in
/-- The south wall does not collide with pC1a. -/
theorem resolve_pC1_box1 :
    resolveBox pC1a ⟨0, 3, -MAP_D, MAP_W, 6, 1⟩ = pC1a := by
  norm_num [resolveBox, playerCollidesBox, jsign, pC1a, basePlayer,
    MAP_W, MAP_D, PLAYER_H, PLAYER_R]

set_option maxHeartbeats 1000000 in
/-- The east wall pushes pC1a out along z, to z = 80.4. -/
theorem resolve_pC1_box2 :
    resolveBox pC1a ⟨MAP_W, 3, 0, 1, 6, MAP_D⟩ = pC1post := by
  norm_num [resolveBox, playerCollidesBox, jsign, pC1a, pC1post, basePlayer,
    MAP_W, MAP_D, PLAYER_H, PLAYER_R, abs_of_nonneg, abs_of_nonpos]

set_option maxHeartbeats 4000000 in
/-- None of the remaining boxes collides with pC1post. -/
theorem resolve_pC1_rest :
    ∀ b ∈ ([⟨-MAP_W, 3, 0, 1, 6, MAP_D⟩,
      ⟨0, 1, 0, 6, 2, 6⟩,
      ⟨-20, 1, 10, 4, 2, 2⟩,
      ⟨-20, 1, -10, 4, 2, 2⟩,
      ⟨-35, 3/2, 0, 2, 3, 8⟩,
      ⟨20, 1, 10, 4, 2, 2⟩,
      ⟨20, 1, -10, 4, 2, 2⟩,
      ⟨35, 3/2, 0, 2, 3, 8⟩,
      ⟨-50, 2, -50, 4, 4, 4⟩,
      ⟨50, 2, -50, 4, 4, 4⟩,
      ⟨-50, 2, 50, 4, 4, 4⟩,
      ⟨50, 2, 50, 4, 4, 4⟩,
      ⟨-10, 3/4, -30, 3, 3/2, 10⟩,
      ⟨10, 3/4, 30, 3, 3/2, 10⟩,
      ⟨-50, 1/2, 0, 6, 1, 12⟩,
      ⟨50, 1/2, 0, 6, 1, 12⟩] : List Box),
      resolveBox pC1post b = pC1post := by
  intro b hb
  fin_cases hb <;>
    norm_num [resolveBox, playerCollidesBox, jsign, pC1post, basePlayer,
      MAP_W, MAP_D, PLAYER_H, PLAYER_R]

/-- Box collision resolution sends pC1mid to pC1post. -/
theorem resolve_pC1 : resolvePlayerCollisions pC1mid = pC1post := by
  rw [resolvePlayerCollisions, MAP_BOXES, List.foldl_cons, resolve_pC1_box0,
    List.foldl_cons, resolve_pC1_box1, List.foldl_cons, resolve_pC1_box2]
  exact foldl_resolveBox_id _ _ resolve_pC1_rest

/-- The movement step of the physics tick sends pC1 to pC1post. -/
theorem movePlayer_pC1 : movePlayer pC1 = pC1post := by
  rw [movePlayer, if_pos (show pC1.alive = true from rfl), movePhase_pC1,
    resolve_pC1]

set_option maxHeartbeats 1000000 in
/-- Counterexample to C1 as stated: pC1 satisfies every claimed invariant
clause before the tick (health, ammo, alive, and (x,z) within the level
bounds), yet at the end of the tick both its x and its z are 402/5 = 80.4,
outside the bound MAP_W - PLAYER_R = 79.6, because the boundary clamp runs
before the box push-out of collision resolution. -/
theorem c1_bounds_counterexample :
    PlayerInv pC1 ∧ inBoundsXZ pC1 ∧
    (lookupP (physicsTick sC1).1.players "P").map Player.x = some (402/5) ∧
    (lookupP (physicsTick sC1).1.players "P").map Player.z = some (402/5) ∧
    ¬ ((402:ℚ)/5 ≤ MAP_W - PLAYER_R) := by
  refine ⟨by norm_num [PlayerInv, pC1, basePlayer],
    by norm_num [inBoundsXZ, pC1, basePlayer, MAP_W, MAP_D, PLAYER_R],
    ?_, ?_, by norm_num [MAP_W, PLAYER_R]⟩ <;>
  simp [physicsTick, sC1, advanceAllPlayers, movePlayer_pC1, lookupP,
    pC1post, basePlayer]

end CEStrike
namespace CEStrike

set_option maxHeartbeats 1000000 in
/-- basePlayer stands still: one movement step returns it unchanged. -/
theorem movePlayer_basePlayer : movePlayer basePlayer = basePlayer := by
  have h1 : movePhase basePlayer = basePlayer := by
    norm_num [movePhase, basePlayer, dt, PHYSICS_HZ, GRAVITY, MAP_W, MAP_D,
      PLAYER_R]
  have h2 : resolvePlayerCollisions basePlayer = basePlayer := by
    rw [resolvePlayerCollisions]
    refine foldl_resolveBox_id _ _ ?_
    intro b hb
    fin_cases hb <;>
      norm_num [resolveBox, playerCollidesBox, jsign, basePlayer, MAP_W,
        MAP_D, PLAYER_H, PLAYER_R]
  rw [movePlayer, if_pos (show basePlayer.alive = true from rfl), h1, h2]

/-- A bullet one and a third units east of basePlayer, flying west at torso
height, owned by the absent connection A. -/
def bC2 : Bullet := ⟨0, "X", 40 + 4/3, 9/10, 0, -1, 0, 0, 22, 0, 0⟩

/-- bC2 after one tick of integration. -/
def bC2post : Bullet := ⟨0, "X", 122/3, 9/10, 0, -1, 0, 0, 22, 0, 2/3⟩

/-- The state for the C2 counterexample: one stationary player, one
incoming bullet. -/
def sC2 : GameState := ⟨[("B", basePlayer)], [bC2], 1, false, none⟩

theorem stepBullet_bC2 : stepBullet bC2 = bC2post := by
  norm_num [stepBullet, bC2, bC2post, BULLET_SPEED, dt, PHYSICS_HZ]

theorem bC2post_alive : bulletExpired bC2post = false := by
  norm_num [bulletExpired, bC2post, BULLET_MAX_DIST, MAP_W, MAP_D,
    abs_of_nonneg, abs_of_nonpos]

set_option maxHeartbeats 1000000 in
theorem bC2post_noMap : bulletHitsMap bC2post = false := by
  norm_num [bulletHitsMap, MAP_BOXES, pointInBox, bC2post, MAP_W, MAP_D,
    abs_of_nonneg, abs_of_nonpos]

theorem bC2post_hits : hitTest basePlayer bC2post = true := by
  norm_num [hitTest, basePlayer, bC2post, PLAYER_H]

set_option maxHeartbeats 1000000 in
/-- Counterexample to C2 as stated: at the projectile's pre-tick position
the hit test against the player's post-tick position is false (squared
distance 16/9 ≥ 0.64), so under the claimed pre-tick-position semantics no
hit would occur this tick; yet the tick scores the hit (the victim's health
drops to 78, a hit notification is emitted and the bullet is removed),
because the code tests the projectile's post-integration position. -/
theorem c2_pretick_counterexample :
    hitTest (movePlayer basePlayer) bC2 = false ∧
    (physicsTick sC2).2 = [Ev.hit "B" 78] ∧
    (lookupP (physicsTick sC2).1.players "B").map Player.health = some 78 ∧
    (physicsTick sC2).1.bullets = [] := by
  have hvp : victimPred bC2post ("B", basePlayer) = true := by
    norm_num [victimPred, bC2post, basePlayer, hitTest, PLAYER_H]
    decide
  have hfind : List.find? (victimPred bC2post) [("B", basePlayer)] =
      some ("B", basePlayer) := List.find?_cons_of_pos _ hvp
  have happ : applyHit [("B", basePlayer)] bC2post "B" basePlayer false none =
      ([("B", { basePlayer with health := 78 })], [Ev.hit "B" 78], false,
        none) := by
    norm_num [applyHit, basePlayer, bC2post, updateP]
  have htick : physicsTick sC2 =
      (⟨[("B", { basePlayer with health := 78 })], [], 1, false, none⟩,
        [Ev.hit "B" 78]) := by
    norm_num [physicsTick, sC2, advanceAllPlayers, movePlayer_basePlayer,
      processBullet, stepBullet_bC2, bC2post_alive, bC2post_noMap, hfind,
      happ]
  refine ⟨?_, ?_, ?_, ?_⟩
  · rw [movePlayer_basePlayer]
    norm_num [hitTest, basePlayer, bC2, PLAYER_H]
  · rw [htick]
  · rw [htick]
    simp [lookupP, List.find?]
  · rw [htick]

/-- C2 (amended): within one tick all player movement and collision is
resolved before any projectile is processed (the bullet loop starts from
the advanced player list), and each projectile's hit test uses the
projectile's post-integration position of the same tick — not its pre-tick
position — against the player's post-tick position: every victim the search
returns satisfies the hit test at stepBullet b.  The concrete conjuncts
exhibit the post-position semantics: the bC2 bullet misses at its pre-tick
position and hits at its integrated position. -/
theorem c2_ordering_corrected :
    (∀ s : GameState, s.gameOver = false →
      (physicsTick s).1.players =
        (s.bullets.foldl processBullet
          ⟨advanceAllPlayers s.players, [], [], s.gameOver, s.winner⟩).players) ∧
    (∀ (acc : TickAcc) (b0 : Bullet) (e : String × Player),
      acc.players.find? (victimPred (stepBullet b0)) = some e →
      hitTest e.2 (stepBullet b0) = true) ∧
    hitTest basePlayer bC2 = false ∧
    hitTest basePlayer (stepBullet bC2) = true := by
  refine ⟨?_, ?_, ?_, ?_⟩
  · intro s h
    rw [physicsTick, if_neg (by simp [h])]
  · intro acc b0 e hf
    exact (victimPred_facts _ _ (List.find?_some hf)).2.2
  · norm_num [hitTest, basePlayer, bC2, PLAYER_H]
  · rw [stepBullet_bC2]
    exact bC2post_hits

/-- Witness for the amended C2, applying it at the concrete state sC2 and
discharging the game-over hypothesis there. -/
theorem c2_ordering_witness :
    (physicsTick sC2).1.players =
      (sC2.bullets.foldl processBullet
        ⟨advanceAllPlayers sC2.players, [], [], sC2.gameOver,
          sC2.winner⟩).players :=
  c2_ordering_corrected.1 sC2 rfl

end CEStrike
namespace CEStrike

/-- Reduction of one bullet step when the integrated bullet survives the
range, bounds and geometry tests and the victim search succeeds. -/
theorem processBullet_hit (acc : TickAcc) (b0 : Bullet) (e : String × Player)
    (hexp : bulletExpired (stepBullet b0) = false)
    (hmap : bulletHitsMap (stepBullet b0) = false)
    (hfind : acc.players.find? (victimPred (stepBullet b0)) = some e) :
    processBullet acc b0 =
      { players := (applyHit acc.players (stepBullet b0) e.1 e.2 acc.gameOver
          acc.winner).1,
        bullets := acc.bullets,
        evs := acc.evs ++ (applyHit acc.players (stepBullet b0) e.1 e.2
          acc.gameOver acc.winner).2.1,
        gameOver := (applyHit acc.players (stepBullet b0) e.1 e.2 acc.gameOver
          acc.winner).2.2.1,
        winner := (applyHit acc.players (stepBullet b0) e.1 e.2 acc.gameOver
          acc.winner).2.2.2 } := by
  rw [processBullet, if_neg (by simp [hexp]), if_neg (by simp [hmap]), hfind]

/-- Reduction of the hit branch when the damage is lethal and the owner is
still connected. -/
theorem applyHit_lethal (ps : List (String × Player)) (b : Bullet)
    (pid : String) (victim : Player) (go : Bool) (win : Option String)
    (shooter : Player) (hl : victim.health - b.damage ≤ 0)
    (hsh1 : lookupP (updateP ps pid
      (fun p => { p with health := 0, alive := false })) b.ownerId =
      some shooter) :
    applyHit ps b pid victim go win =
      (updateP (updateP ps pid
        (fun p => { p with health := 0, alive := false })) b.ownerId
        (fun p => { p with kills := p.kills + 1 }),
       (if WINS_REQUIRED ≤ shooter.kills + 1 then
          [Ev.hit pid (max 0 (victim.health - b.damage)),
           Ev.killFeed shooter.name victim.name shooter.character,
           Ev.gameOverEv shooter.name shooter.character,
           Ev.respawnScheduled pid RESPAWN_MS]
        else
          [Ev.hit pid (max 0 (victim.health - b.damage)),
           Ev.killFeed shooter.name victim.name shooter.character,
           Ev.respawnScheduled pid RESPAWN_MS]),
       (if WINS_REQUIRED ≤ shooter.kills + 1 then true else go),
       (if WINS_REQUIRED ≤ shooter.kills + 1 then some shooter.name
        else win)) := by
  rw [applyHit, if_pos hl]
  dsimp only
  rw [hsh1]
  dsimp only
  by_cases hwin : WINS_REQUIRED ≤ shooter.kills + 1
  · rw [if_pos hwin, if_pos hwin, if_pos hwin, if_pos hwin]
  · rw [if_neg hwin, if_neg hwin, if_neg hwin, if_neg hwin]

/-- C3: when a projectile hit reduces a live victim's health to 0 or below
and the owner is still connected, the victim ends the step with health
pinned at exactly 0 and alive false, the owner's kill count is incremented
by 1, a kill notification naming killer and victim (and the killer's
archetype) is broadcast to all connections, and if the owner's new kill
count reaches the win threshold the match state becomes game-over and the
winner is broadcast. -/
theorem c3_lethal_hit_confirmed (acc : TickAcc) (b0 : Bullet) (pid : String)
    (victim shooter : Player)
    (hnd : keysNodup acc.players)
    (hexp : bulletExpired (stepBullet b0) = false)
    (hmap : bulletHitsMap (stepBullet b0) = false)
    (hfind : acc.players.find? (victimPred (stepBullet b0)) =
      some (pid, victim))
    (hlethal : victim.health - b0.damage ≤ 0)
    (hsh : lookupP acc.players b0.ownerId = some shooter) :
    (lookupP (processBullet acc b0).players pid).map Player.health = some 0 ∧
    (lookupP (processBullet acc b0).players pid).map Player.alive =
      some false ∧
    (lookupP (processBullet acc b0).players b0.ownerId).map Player.kills =
      some (shooter.kills + 1) ∧
    Ev.killFeed shooter.name victim.name shooter.character ∈
      (processBullet acc b0).evs ∧
    Ev.isBroadcast (Ev.killFeed shooter.name victim.name shooter.character) =
      true ∧
    (WINS_REQUIRED ≤ shooter.kills + 1 →
      (processBullet acc b0).gameOver = true ∧
      (processBullet acc b0).winner = some shooter.name ∧
      Ev.gameOverEv shooter.name shooter.character ∈
        (processBullet acc b0).evs ∧
      Ev.isBroadcast (Ev.gameOverEv shooter.name shooter.character) = true) := by
  have hso : (stepBullet b0).ownerId = b0.ownerId := rfl
  have hpfacts := victimPred_facts _ _ (List.find?_some hfind)
  have hne : pid ≠ b0.ownerId := hpfacts.1
  have hne2 : b0.ownerId ≠ pid := fun h => hne h.symm
  have hvlook : lookupP acc.players pid = some victim :=
    lookupP_eq_of_mem_nodup _ _ _ hnd (List.mem_of_find?_eq_some hfind)
  have hsh1 : lookupP (updateP acc.players pid
      (fun p => { p with health := 0, alive := false })) b0.ownerId =
      some shooter := by
    rw [lookupP_updateP_ne _ _ _ _ hne2]
    exact hsh
  have hlethal2 : victim.health - (stepBullet b0).damage ≤ 0 := hlethal
  have hsh1b : lookupP (updateP acc.players pid
      (fun p => { p with health := 0, alive := false }))
      (stepBullet b0).ownerId = some shooter := hsh1
  rw [processBullet_hit acc b0 (pid, victim) hexp hmap hfind,
    applyHit_lethal acc.players (stepBullet b0) pid victim acc.gameOver
      acc.winner shooter hlethal2 hsh1b]
  dsimp only
  rw [hso]
  have hlook_pid : lookupP (updateP (updateP acc.players pid
      (fun p => { p with health := 0, alive := false })) b0.ownerId
      (fun p => { p with kills := p.kills + 1 })) pid =
      some { victim with health := 0, alive := false } := by
    rw [lookupP_updateP_ne _ _ _ _ hne, lookupP_updateP_self, hvlook]
    rfl
  have hlook_own : lookupP (updateP (updateP acc.players pid
      (fun p => { p with health := 0, alive := false })) b0.ownerId
      (fun p => { p with kills := p.kills + 1 })) b0.ownerId =
      some { shooter with kills := shooter.kills + 1 } := by
    rw [lookupP_updateP_self, hsh1]
    rfl
  refine ⟨by rw [hlook_pid]; rfl, by rw [hlook_pid]; rfl,
    by rw [hlook_own]; rfl, ?_, rfl, ?_⟩
  · by_cases hwin : WINS_REQUIRED ≤ shooter.kills + 1
    · rw [if_pos hwin]
      simp
    · rw [if_neg hwin]
      simp
  · intro hwin
    rw [if_pos hwin, if_pos hwin, if_pos hwin]
    refine ⟨rfl, rfl, by simp, rfl⟩

end CEStrike
namespace CEStrike

/-- The shooter of the C3 witness scenario: 14 kills, one short of the
threshold. -/
def shooterW : Player := { basePlayer with kills := 14 }

/-- The victim of the C3 witness scenario: 10 health left, standing at
(30, 0, 0). -/
def victimW : Player :=
  { basePlayer with id := "B", name := "Bea", x := 30, health := 10 }

/-- The witness bullet: owned by A, flying west toward the victim torso. -/
def bW3 : Bullet := ⟨5, "A", 30 + 4/3, 9/10, 0, -1, 0, 0, 22, 0, 0⟩

/-- bW3 after one tick of integration. -/
def bW3post : Bullet := ⟨5, "A", 92/3, 9/10, 0, -1, 0, 0, 22, 0, 2/3⟩

/-- The bullet-loop accumulator of the C3 witness scenario. -/
def accW3 : TickAcc :=
  ⟨[("A", shooterW), ("B", victimW)], [], [], false, none⟩

theorem stepBullet_bW3 : stepBullet bW3 = bW3post := by
  norm_num [stepBullet, bW3, bW3post, BULLET_SPEED, dt, PHYSICS_HZ]

theorem bW3post_alive : bulletExpired bW3post = false := by
  norm_num [bulletExpired, bW3post, BULLET_MAX_DIST, MAP_W, MAP_D,
    abs_of_nonneg, abs_of_nonpos]

set_option maxHeartbeats 1000000 in
theorem bW3post_noMap : bulletHitsMap bW3post = false := by
  norm_num [bulletHitsMap, MAP_BOXES, pointInBox, bW3post, MAP_W, MAP_D,
    abs_of_nonneg, abs_of_nonpos]

theorem findVictim_accW3 :
    accW3.players.find? (victimPred (stepBullet bW3)) = some ("B", victimW) := by
  rw [stepBullet_bW3]
  have hA : victimPred bW3post ("A", shooterW) = false := by
    simp [victimPred, bW3post]
  have hB : victimPred bW3post ("B", victimW) = true := by
    norm_num [victimPred, bW3post, victimW, basePlayer, hitTest, PLAYER_H]
    decide
  rw [show accW3.players = [("A", shooterW), ("B", victimW)] from rfl,
    List.find?_cons_of_neg _ (by simp [hA]), List.find?_cons_of_pos _ hB]

/-- Witness for C3 at the concrete scenario: the lethal hit pins the
victim at 0 health and dead, credits the shooter's 15th kill, broadcasts
the kill feed, and (the threshold being reached) ends the match with the
shooter as winner. -/
theorem c3_lethal_hit_witness :
    (lookupP (processBullet accW3 bW3).players "B").map Player.health =
      some 0 ∧
    (lookupP (processBullet accW3 bW3).players "B").map Player.alive =
      some false ∧
    (lookupP (processBullet accW3 bW3).players bW3.ownerId).map Player.kills =
      some (shooterW.kills + 1) ∧
    Ev.killFeed shooterW.name victimW.name shooterW.character ∈
      (processBullet accW3 bW3).evs ∧
    Ev.isBroadcast (Ev.killFeed shooterW.name victimW.name
      shooterW.character) = true ∧
    (WINS_REQUIRED ≤ shooterW.kills + 1 →
      (processBullet accW3 bW3).gameOver = true ∧
      (processBullet accW3 bW3).winner = some shooterW.name ∧
      Ev.gameOverEv shooterW.name shooterW.character ∈
        (processBullet accW3 bW3).evs ∧
      Ev.isBroadcast (Ev.gameOverEv shooterW.name shooterW.character) =
        true) :=
  c3_lethal_hit_confirmed accW3 bW3 "B" victimW shooterW
    (by unfold keysNodup; decide)
    (by rw [stepBullet_bW3]; exact bW3post_alive)
    (by rw [stepBullet_bW3]; exact bW3post_noMap)
    findVictim_accW3
    (by norm_num [victimW, basePlayer, bW3])
    (by simp [lookupP, accW3, bW3, List.find?])

end CEStrike
namespace CEStrike

/-- startReload never changes the bullet store. -/
theorem startReload_bullets (s : GameState) (sid : String) :
    (startReload s sid).1.bullets = s.bullets ∧
    (startReload s sid).1.bulletId = s.bulletId := by
  rw [startReload]
  cases h : lookupP s.players sid <;> simp

/-- Reduction of a successful fire request: one ammo is consumed and the
pellet bullets are appended with fresh consecutive ids; whether or not the
magazine then empties (auto-reload), the bullet store and counter are the
same. -/
theorem handleShoot_fire (s : GameState) (sid : String) (now : ℤ)
    (dx dy dz : ℚ) (rnd : ℕ → ℚ × ℚ × ℚ) (lenOf : ℕ → ℚ) (p : Player)
    (hp : lookupP s.players sid = some p)
    (halive : p.alive = true) (hrel : p.reloading = false)
    (hammo : 0 < p.ammo) (hrate : p.fireRateMs ≤ now - p.lastShot) :
    (handleShoot s sid now dx dy dz rnd lenOf).1.bullets =
      s.bullets ++ (List.range (if p.character = "Chesney" then 6 else 1)).map
        (fun i => mkBullet p sid (s.bulletId + i) dx dy dz
          (if p.character = "Chesney" then 2/25 else 0)
          (p.character = "Chesney")
          (if p.character = "Chesney" then 6 else 1) (rnd i) (lenOf i)) ∧
    (handleShoot s sid now dx dy dz rnd lenOf).1.bulletId =
      s.bulletId + (if p.character = "Chesney" then 6 else 1) := by
  have hg1 : ¬(p.alive = false ∨ p.reloading = true ∨ p.ammo ≤ 0) := by
    push_neg
    refine ⟨by simp [halive], by simp [hrel], by omega⟩
  have hg2 : ¬(now - p.lastShot < p.fireRateMs) := not_lt.mpr hrate
  rw [handleShoot]
  simp only [hp]
  rw [if_neg hg1, if_neg hg2]
  dsimp only
  constructor <;> split <;>
    simp [startReload_bullets]

end CEStrike
namespace CEStrike

/-- A jittered component stays within half the spread of the aim
component. -/
theorem jitter_bound (v r spread : ℚ) (hr0 : 0 ≤ r) (hr1 : r ≤ 1)
    (hs : 0 ≤ spread) : |v + (r - 1/2) * spread - v| ≤ spread / 2 := by
  have h1 : |r - 1/2| ≤ 1/2 := abs_le.mpr ⟨by linarith, by linarith⟩
  calc |v + (r - 1/2) * spread - v| = |r - 1/2| * spread := by
        rw [show v + (r - 1/2) * spread - v = (r - 1/2) * spread by ring,
          abs_mul, abs_of_nonneg hs]
    _ ≤ 1/2 * spread := mul_le_mul_of_nonneg_right h1 hs
    _ = spread / 2 := by ring

/-- The per-pellet properties of one created bullet: owner, id, unit
direction (when the jittered vector is nonzero), jitter within half the
spread per component, and the damage split. -/
theorem mkBullet_props (p : Player) (sid : String) (bid : ℕ)
    (dx dy dz spread : ℚ) (isC : Bool) (pel : ℕ) (r : ℚ × ℚ × ℚ) (len0 : ℚ)
    (hr : 0 ≤ r.1 ∧ r.1 ≤ 1 ∧ 0 ≤ r.2.1 ∧ r.2.1 ≤ 1 ∧ 0 ≤ r.2.2 ∧
      r.2.2 ≤ 1)
    (hs : 0 ≤ spread)
    (hlen : len0 ^ 2 = (pelletRaw dx dy dz spread r).1 ^ 2 +
      (pelletRaw dx dy dz spread r).2.1 ^ 2 +
      (pelletRaw dx dy dz spread r).2.2 ^ 2)
    (hnz : len0 ≠ 0) :
    (mkBullet p sid bid dx dy dz spread isC pel r len0).ownerId = sid ∧
    (mkBullet p sid bid dx dy dz spread isC pel r len0).id = bid ∧
    (mkBullet p sid bid dx dy dz spread isC pel r len0).dx ^ 2 +
      (mkBullet p sid bid dx dy dz spread isC pel r len0).dy ^ 2 +
      (mkBullet p sid bid dx dy dz spread isC pel r len0).dz ^ 2 = 1 ∧
    |(mkBullet p sid bid dx dy dz spread isC pel r len0).dx * len0 - dx| ≤
      spread / 2 ∧
    |(mkBullet p sid bid dx dy dz spread isC pel r len0).dy * len0 - dy| ≤
      spread / 2 ∧
    |(mkBullet p sid bid dx dy dz spread isC pel r len0).dz * len0 - dz| ≤
      spread / 2 ∧
    (mkBullet p sid bid dx dy dz spread isC pel r len0).damage =
      (if isC = true then p.damage / pel else p.damage) := by
  have hif : (if len0 = 0 then 1 else len0) = len0 := if_neg hnz
  have hdx : (mkBullet p sid bid dx dy dz spread isC pel r len0).dx =
      (pelletRaw dx dy dz spread r).1 / len0 := by
    rw [mkBullet]
    dsimp only
    rw [hif]
  have hdy : (mkBullet p sid bid dx dy dz spread isC pel r len0).dy =
      (pelletRaw dx dy dz spread r).2.1 / len0 := by
    rw [mkBullet]
    dsimp only
    rw [hif]
  have hdz : (mkBullet p sid bid dx dy dz spread isC pel r len0).dz =
      (pelletRaw dx dy dz spread r).2.2 / len0 := by
    rw [mkBullet]
    dsimp only
    rw [hif]
  refine ⟨rfl, rfl, ?_, ?_, ?_, ?_, rfl⟩
  · rw [hdx, hdy, hdz, div_pow, div_pow, div_pow, div_add_div_same,
      div_add_div_same, ← hlen, div_self (pow_ne_zero 2 hnz)]
  · rw [hdx, div_mul_cancel₀ _ hnz]
    exact jitter_bound dx r.1 spread hr.1 hr.2.1 hs
  · rw [hdy, div_mul_cancel₀ _ hnz]
    exact jitter_bound dy r.2.1 spread hr.2.2.1 hr.2.2.2.1 hs
  · rw [hdz, div_mul_cancel₀ _ hnz]
    exact jitter_bound dz r.2.2 spread hr.2.2.2.2.1 hr.2.2.2.2.2 hs

end CEStrike
namespace CEStrike

/-- The id of a created bullet is the passed counter value. -/
theorem mkBullet_id (p : Player) (sid : String) (bid : ℕ)
    (dx dy dz spread : ℚ) (isC : Bool) (pel : ℕ) (r : ℚ × ℚ × ℚ)
    (len0 : ℚ) :
    (mkBullet p sid bid dx dy dz spread isC pel r len0).id = bid := rfl

/-- C7 (amended): a successful fire request from the shotgun-class
archetype (Chesney) creates exactly 6 projectiles, each with damage equal
to the base damage divided by 6; any other archetype creates exactly one
projectile with full base damage; every created projectile's direction,
provided its jittered direction vector is nonzero (equivalently the
Math.sqrt value lenOf is nonzero), is a unit vector whose pre-normalization
components differ from the aim vector by at most half the configured
spread (0.08 for Chesney, 0 — no spread — otherwise); and the ids are
consecutive fresh values of the monotone bulletId counter: never below the
counter, never reused against existing bullets, with the counter advanced
past all of them. -/
theorem c7_pellets_corrected (s : GameState) (sid : String) (now : ℤ)
    (dx dy dz : ℚ) (rnd : ℕ → ℚ × ℚ × ℚ) (lenOf : ℕ → ℚ) (p : Player)
    (hp : lookupP s.players sid = some p)
    (halive : p.alive = true) (hrel : p.reloading = false)
    (hammo : 0 < p.ammo) (hrate : p.fireRateMs ≤ now - p.lastShot)
    (hr : ∀ i, i < 6 → 0 ≤ (rnd i).1 ∧ (rnd i).1 ≤ 1 ∧ 0 ≤ (rnd i).2.1 ∧
      (rnd i).2.1 ≤ 1 ∧ 0 ≤ (rnd i).2.2 ∧ (rnd i).2.2 ≤ 1)
    (hlen : ∀ i, i < 6 → (lenOf i) ^ 2 =
      (pelletRaw dx dy dz (if p.character = "Chesney" then 2/25 else 0)
        (rnd i)).1 ^ 2 +
      (pelletRaw dx dy dz (if p.character = "Chesney" then 2/25 else 0)
        (rnd i)).2.1 ^ 2 +
      (pelletRaw dx dy dz (if p.character = "Chesney" then 2/25 else 0)
        (rnd i)).2.2 ^ 2)
    (hnz : ∀ i, i < 6 → lenOf i ≠ 0)
    (hfresh : ∀ b ∈ s.bullets, b.id < s.bulletId) :
    ((handleShoot s sid now dx dy dz rnd lenOf).1.bullets.drop
        s.bullets.length).length =
      (if p.character = "Chesney" then 6 else 1) ∧
    (handleShoot s sid now dx dy dz rnd lenOf).1.bulletId =
      s.bulletId + (if p.character = "Chesney" then 6 else 1) ∧
    (∀ j b, ((handleShoot s sid now dx dy dz rnd lenOf).1.bullets.drop
        s.bullets.length).get? j = some b →
      b.ownerId = sid ∧
      b.id = s.bulletId + j ∧
      b.damage =
        (if p.character = "Chesney" then p.damage / 6 else p.damage) ∧
      b.dx ^ 2 + b.dy ^ 2 + b.dz ^ 2 = 1 ∧
      |b.dx * lenOf j - dx| ≤
        (if p.character = "Chesney" then 2/25 else 0) / 2 ∧
      |b.dy * lenOf j - dy| ≤
        (if p.character = "Chesney" then 2/25 else 0) / 2 ∧
      |b.dz * lenOf j - dz| ≤
        (if p.character = "Chesney" then 2/25 else 0) / 2 ∧
      ∀ bOld ∈ s.bullets, bOld.id ≠ b.id) ∧
    (∀ b ∈ (handleShoot s sid now dx dy dz rnd lenOf).1.bullets,
      b.id < (handleShoot s sid now dx dy dz rnd lenOf).1.bulletId) := by
  obtain ⟨hbul, hbid⟩ :=
    handleShoot_fire s sid now dx dy dz rnd lenOf p hp halive hrel hammo hrate
  by_cases hch : p.character = "Chesney"
  case pos =>
    simp only [if_pos hch] at hbul hbid hlen ⊢
    refine ⟨?_, hbid, ?_, ?_⟩
    · rw [hbul, List.drop_left]
      simp
    · intro j b hb
      rw [hbul, List.drop_left, List.get?_map] at hb
      cases hr0 : (List.range 6).get? j with
      | none =>
        rw [hr0] at hb
        simp at hb
      | some i =>
        rw [hr0] at hb
        obtain ⟨hlt, hget⟩ := List.get?_eq_some.mp hr0
        rw [List.length_range] at hlt
        rw [List.get_range] at hget
        subst hget
        simp only [Option.map_some', Option.some.injEq] at hb
        subst hb
        have hprops := mkBullet_props p sid (s.bulletId + j) dx dy dz (2/25)
          (decide (p.character = "Chesney")) 6 (rnd j) (lenOf j)
          (hr j hlt) (by norm_num) (hlen j hlt) (hnz j hlt)
        refine ⟨hprops.1, mkBullet_id _ _ _ _ _ _ _ _ _ _ _, ?_,
          hprops.2.2.1, hprops.2.2.2.1, hprops.2.2.2.2.1,
          hprops.2.2.2.2.2.1, ?_⟩
        · rw [hprops.2.2.2.2.2.2]
          simp [hch]
        · intro bOld hbo
          have h1 := hfresh bOld hbo
          rw [mkBullet_id]
          omega
    · rw [hbul, hbid]
      intro b hb
      rcases List.mem_append.mp hb with h | h
      · have := hfresh b h
        omega
      · rcases List.mem_map.mp h with ⟨i, hi, rfl⟩
        have hi6 := List.mem_range.mp hi
        rw [mkBullet_id]
        omega
  case neg =>
    simp only [if_neg hch] at hbul hbid hlen ⊢
    refine ⟨?_, hbid, ?_, ?_⟩
    · rw [hbul, List.drop_left]
      simp
    · intro j b hb
      rw [hbul, List.drop_left, List.get?_map] at hb
      cases hr0 : (List.range 1).get? j with
      | none =>
        rw [hr0] at hb
        simp at hb
      | some i =>
        rw [hr0] at hb
        obtain ⟨hlt, hget⟩ := List.get?_eq_some.mp hr0
        rw [List.length_range] at hlt
        rw [List.get_range] at hget
        subst hget
        simp only [Option.map_some', Option.some.injEq] at hb
        subst hb
        have hprops := mkBullet_props p sid (s.bulletId + j) dx dy dz 0
          (decide (p.character = "Chesney")) 1 (rnd j) (lenOf j)
          (hr j (by omega)) (by norm_num) (hlen j (by omega))
          (hnz j (by omega))
        refine ⟨hprops.1, mkBullet_id _ _ _ _ _ _ _ _ _ _ _, ?_,
          hprops.2.2.1, hprops.2.2.2.1, hprops.2.2.2.2.1,
          hprops.2.2.2.2.2.1, ?_⟩
        · rw [hprops.2.2.2.2.2.2]
          simp [hch]
        · intro bOld hbo
          have h1 := hfresh bOld hbo
          rw [mkBullet_id]
          omega
    · rw [hbul, hbid]
      intro b hb
      rcases List.mem_append.mp hb with h | h
      · have := hfresh b h
        omega
      · rcases List.mem_map.mp h with ⟨i, hi, rfl⟩
        have hi1 := List.mem_range.mp hi
        rw [mkBullet_id]
        omega

end CEStrike
namespace CEStrike

/-- A Chesney (shotgun) player used by the C7 scenarios. -/
def pChes : Player :=
  { basePlayer with
    id := "C", name := "Ches", character := "Chesney", speed := 11/2,
    health := 140, maxHp := 140, damage := 45, fireRateMs := 600,
    reloadMs := 2200, maxAmmo := 6, ammo := 6 }

/-- A one-player state around pChes. -/
def sC7 : GameState := ⟨[("C", pChes)], [], 0, false, none⟩

/-- Counterexample to C7 as stated: a fire request with the zero aim
vector (0,0,0) and median random draws (Math.random() = 0.5, so the jitter
vanishes and the jittered direction is the zero vector, whose true square
root of the squared norm is 0) creates a projectile whose direction vector
is (0,0,0) — squared norm 0, not a unit vector — because the code replaces
the zero length by 1 (the expression len || 1) instead of rejecting the
request. -/
theorem c7_zero_aim_counterexample :
    pelletRaw 0 0 0 (2/25) (1/2, 1/2, 1/2) = (0, 0, 0) ∧
    (0:ℚ) ^ 2 = 0 ^ 2 + 0 ^ 2 + 0 ^ 2 ∧
    ∃ b, ((handleShoot sC7 "C" 1000 0 0 0 (fun _ => (1/2, 1/2, 1/2))
        (fun _ => 0)).1.bullets).get? 0 = some b ∧
      b.dx ^ 2 + b.dy ^ 2 + b.dz ^ 2 = 0 ∧
      ¬(b.dx ^ 2 + b.dy ^ 2 + b.dz ^ 2 = 1) := by
  refine ⟨by norm_num [pelletRaw], by norm_num, ?_⟩
  obtain ⟨hbul, _⟩ := handleShoot_fire sC7 "C" 1000 0 0 0
    (fun _ => (1/2, 1/2, 1/2)) (fun _ => 0) pChes
    (by simp [lookupP, sC7, List.find?]) rfl rfl
    (by norm_num [pChes, basePlayer]) (by norm_num [pChes, basePlayer])
  rw [hbul]
  simp only [if_pos (show pChes.character = "Chesney" from rfl)]
  refine ⟨mkBullet pChes "C" (sC7.bulletId + 0) 0 0 0 (2/25)
    (decide (pChes.character = "Chesney")) 6 (1/2, 1/2, 1/2) 0, ?_, ?_, ?_⟩
  · rw [show sC7.bullets = [] from rfl, List.nil_append, List.get?_map,
      List.get?_range (by norm_num)]
    rfl
  · norm_num [mkBullet, pelletRaw]
  · norm_num [mkBullet, pelletRaw]

/-- Witness for the amended C7: a Chesney fire request with unit aim
(0,0,1) and median random draws (jitter zero, so each pellet's length
value is 1). -/
theorem c7_pellets_witness :
    ((handleShoot sC7 "C" 1000 0 0 1 (fun _ => (1/2, 1/2, 1/2))
        (fun _ => 1)).1.bullets.drop sC7.bullets.length).length =
      (if pChes.character = "Chesney" then 6 else 1) ∧
    (handleShoot sC7 "C" 1000 0 0 1 (fun _ => (1/2, 1/2, 1/2))
        (fun _ => 1)).1.bulletId =
      sC7.bulletId + (if pChes.character = "Chesney" then 6 else 1) ∧
    (∀ j b, ((handleShoot sC7 "C" 1000 0 0 1 (fun _ => (1/2, 1/2, 1/2))
        (fun _ => 1)).1.bullets.drop sC7.bullets.length).get? j = some b →
      b.ownerId = "C" ∧
      b.id = sC7.bulletId + j ∧
      b.damage =
        (if pChes.character = "Chesney" then pChes.damage / 6
         else pChes.damage) ∧
      b.dx ^ 2 + b.dy ^ 2 + b.dz ^ 2 = 1 ∧
      |b.dx * 1 - 0| ≤ (if pChes.character = "Chesney" then 2/25 else 0) / 2 ∧
      |b.dy * 1 - 0| ≤ (if pChes.character = "Chesney" then 2/25 else 0) / 2 ∧
      |b.dz * 1 - 1| ≤ (if pChes.character = "Chesney" then 2/25 else 0) / 2 ∧
      ∀ bOld ∈ sC7.bullets, bOld.id ≠ b.id) ∧
    (∀ b ∈ (handleShoot sC7 "C" 1000 0 0 1 (fun _ => (1/2, 1/2, 1/2))
        (fun _ => 1)).1.bullets,
      b.id < (handleShoot sC7 "C" 1000 0 0 1 (fun _ => (1/2, 1/2, 1/2))
        (fun _ => 1)).1.bulletId) :=
  c7_pellets_corrected sC7 "C" 1000 0 0 1 (fun _ => (1/2, 1/2, 1/2))
    (fun _ => 1) pChes
    (by simp [lookupP, sC7, List.find?]) rfl rfl
    (by norm_num [pChes, basePlayer]) (by norm_num [pChes, basePlayer])
    (fun i _ => by norm_num)
    (fun i _ => by norm_num [pelletRaw, pChes, basePlayer])
    (fun i _ => by norm_num)
    (by simp [sC7])

end CEStrike
